import Mathlib

/-!
Shallow embedding of the process_pillz daemon core (pill_manager.go, actions.go).

The OS and the D-Bus control services are modelled as an explicit environment
(`Env`, `Bus`): process enumeration, per-pid user/command-line/name/parent
resolution and the outcome of each external call are fields of the
environment, threaded explicitly.  Go maps whose iteration order matters
(`Triggers`, the pill settings) are modelled as association lists in a fixed
order; `knownProcs` is an association list as well.  Observable side effects
(connection attempts, sleeps, D-Bus calls, `syscall.Setpriority`, entry into
`eatPill`) are collected in an event trace.
-/

namespace ProcessPillz

/-- Association-list lookup, first binding wins (models Go map read). -/
def alookup {α β : Type} [DecidableEq α] : List (α × β) → α → Option β
  | [], _ => none
  | (k, v) :: rest, key => if k = key then some v else alookup rest key

/-- Replace the value bound to `key` (models an update through a map entry
pointer: it never inserts a missing key). -/
def aupdate {α β : Type} [DecidableEq α] : List (α × β) → α → β → List (α × β)
  | [], _, _ => []
  | (k, v) :: rest, key, newv =>
    if k = key then (key, newv) :: rest
    else (k, v) :: aupdate rest key newv

/-- Go `strings.Contains cmd trigger`. -/
def goContains (s sub : String) : Bool := decide (sub.data <:+: s.data)

/-- Digit-string accumulator for `goAtoi`; `none` marks "no digit seen yet"
or a non-digit character. -/
def digitsVal : List Char → Option Nat → Option Nat
  | [], acc => acc
  | c :: rest, acc =>
    if '0' ≤ c ∧ c ≤ '9' then
      digitsVal rest (some ((acc.getD 0) * 10 + (c.toNat - 48)))
    else none

/-- Go `strconv.Atoi`: optional sign, then one or more digits, nothing else. -/
def goAtoi (s : String) : Option Int :=
  match s.data with
  | [] => none
  | '-' :: rest => (digitsVal rest none).map (fun n => -(n : Int))
  | '+' :: rest => (digitsVal rest none).map (fun n => (n : Int))
  | cs => (digitsVal cs none).map (fun n => (n : Int))

/-- Helper for `goSplit`, accumulating the current field reversed. -/
def splitSpace : List Char → List Char → List String
  | [], cur => [String.mk cur.reverse]
  | c :: rest, cur =>
    if c = ' ' then String.mk cur.reverse :: splitSpace rest []
    else splitSpace rest (c :: cur)

/-- Go `strings.Split s " "`. -/
def goSplit (s : String) : List String := splitSpace s.data []

/-- Cached per-process record (`ProcessInfo` in pill_manager.go). -/
structure ProcessInfo where
  Name : String
  Cmdline : String
  Username : String
  Reniced : Bool
deriving DecidableEq, Repr

/-- Observable events: connection attempts and sleeps of the retry loop,
D-Bus calls, `syscall.Setpriority` attempts, and entry into `eatPill`. -/
inductive Ev where
  | connectAttempt (ok : Bool)
  | sleep
  | tunedList
  | tunedSwitch (profile : String)
  | scxGetProp
  | scxStop
  | scxSwitch (sched : String) (mode : Nat)
  | setpriority (pid : Int) (nice : Int)
  | eat (p : Option Int) (pill : String)
deriving DecidableEq, Repr

/-- Behaviour of the D-Bus services (tuned, scx_loader) as seen by the
daemon: advertised capability lists and the outcome of each call.
`tunedListOk` is whether the tuned `profiles` query itself succeeds: this
is the one remote call whose failure the code does not check — it indexes
the reply body unconditionally, so a failure panics the daemon. -/
structure Bus where
  tunedProfiles : List String
  tunedListOk : Bool
  tunedSwitchOk : String → Bool
  scxSupported : List String
  scxGetPropOk : Bool
  scxSwitchOk : String → Nat → Bool
  scxStopOk : Bool

/-- The OS as seen by one `scanProcesses` call: `procs` is the result of
`process.Processes()` (`none` = enumeration error); the per-pid resolvers
return `none` on error; `connectResults` are the outcomes of successive
D-Bus connection attempts (a `some c` is the connection handle obtained). -/
structure Env where
  procs : Option (List Int)
  username : Int → Option String
  cmdline : Int → Option String
  pname : Int → Option String
  parent : Int → Option Int
  setpriorityOk : Int → Bool
  bus : Bus
  connectResults : List (Option Nat)

/-- `PillManager` state (pill_manager.go). -/
structure PillManager where
  Triggers : List (String × String)
  Pillz : List (String × List (String × String))
  dbusConn : Option Nat
  CurrentPill : String
  currentProc : Int
  currentParent : Int
  userName : String
  knownProcs : List (Int × ProcessInfo)
deriving DecidableEq, Repr

/-- `invalidParents` (pill_manager.go). -/
def invalidParents : List String := ["systemd", "srt-bwrap", "steam"]

/-- `getValidParent` (pill_manager.go lines 39-58): parent unresolvable or
parent name unresolvable return the pid itself; a denylisted parent name
returns -1; otherwise the parent pid. -/
def getValidParent (env : Env) (pid : Int) : Int :=
  match env.parent pid with
  | none => pid
  | some ppid =>
    match env.pname ppid with
    | none => pid
    | some parName =>
      if parName ∈ invalidParents then -1 else ppid

/-- `checkTriggerMatch`: first trigger substring contained in `cmd` wins. -/
def checkTriggerMatch (triggers : List (String × String)) (cmd : String) : String :=
  match triggers with
  | [] => ""
  | (trigger, pill) :: rest =>
    if goContains cmd trigger then pill else checkTriggerMatch rest cmd

/-- The `for i := range maxRetries` loop of `connectToDbus`: each failed
attempt logs and sleeps `timeBetweenRetries`; a success breaks out. -/
def connectLoop : Nat → List (Option Nat) → Option Nat × List (Option Nat) × List Ev
  | 0, results => (none, results, [])
  | n + 1, results =>
    match results with
    | [] =>
      let r := connectLoop n []
      (r.1, r.2.1, Ev.connectAttempt false :: Ev.sleep :: r.2.2)
    | outcome :: rest =>
      match outcome with
      | some c => (some c, rest, [Ev.connectAttempt true])
      | none =>
        let r := connectLoop n rest
        (r.1, r.2.1, Ev.connectAttempt false :: Ev.sleep :: r.2.2)

/-- Result of one bridge operation: connection after the call, remaining
connection outcomes, trace, error status, and whether the operation
panicked.  `panicked = true` means the daemon died inside the call (the
unchecked `Body[0]` index of the tuned `profiles` reply): the remaining
fields describe what had happened up to that point, and nothing after the
call runs. -/
structure CallResult where
  conn : Option Nat
  results : List (Option Nat)
  trace : List Ev
  isErr : Bool
  panicked : Bool
deriving Repr

/-- `connectToDbus` (actions.go lines 15-36): `maxRetries = 3`; the error
status is "connection still nil after the loop". -/
def connectToDbus (conn : Option Nat) (results : List (Option Nat)) : CallResult :=
  match conn with
  | some c => ⟨some c, results, [], false, false⟩
  | none =>
    let r := connectLoop 3 results
    ⟨r.1, r.2.1, r.2.2, r.1.isNone, false⟩

/-- `setTunedProfile` (actions.go lines 39-56): connect, fetch the
advertised profile list, reject an unknown profile, else issue the
`switch_profile` call once and return its status.  The `profiles` query
result is indexed as `.Body[0]` without checking the call's error
(actions.go line 50): when that call fails its body is empty and the
daemon panics — modelled by the `panicked` outcome. -/
def setTunedProfile (bus : Bus) (conn : Option Nat) (results : List (Option Nat))
    (profile : String) : CallResult :=
  let r := connectToDbus conn results
  if r.isErr then ⟨r.conn, r.results, r.trace, true, false⟩
  else if !bus.tunedListOk then
    ⟨r.conn, r.results, r.trace ++ [Ev.tunedList], true, true⟩
  else if profile ∈ bus.tunedProfiles then
    ⟨r.conn, r.results, r.trace ++ [Ev.tunedList, Ev.tunedSwitch profile],
      !bus.tunedSwitchOk profile, false⟩
  else
    ⟨r.conn, r.results, r.trace ++ [Ev.tunedList], true, false⟩

/-- `setScx` (actions.go lines 59-106): connect; `"none"` stops the
scheduler; otherwise split the config string, fetch the supported-scheduler
property, reject an unsupported scheduler, parse the optional mode
(falling back to 0 outside 0..4 or on a parse error), and issue the
`SwitchScheduler` call once. -/
def setScx (bus : Bus) (conn : Option Nat) (results : List (Option Nat))
    (scx : String) : CallResult :=
  let r := connectToDbus conn results
  if r.isErr then ⟨r.conn, r.results, r.trace, true, false⟩
  else if scx = "none" then
    ⟨r.conn, r.results, r.trace ++ [Ev.scxStop], !bus.scxStopOk, false⟩
  else
    let args := goSplit scx
    let sched := args.headD ""
    if !bus.scxGetPropOk then
      ⟨r.conn, r.results, r.trace ++ [Ev.scxGetProp], true, false⟩
    else if sched ∈ bus.scxSupported then
      let mode : Nat :=
        if args.length > 1 then
          match goAtoi (args.getD 1 "") with
          | some i => if i < 0 ∨ 4 < i then 0 else i.toNat
          | none => 0
        else 0
      ⟨r.conn, r.results, r.trace ++ [Ev.scxGetProp, Ev.scxSwitch sched mode],
        !bus.scxSwitchOk sched mode, false⟩
    else
      ⟨r.conn, r.results, r.trace ++ [Ev.scxGetProp], true, false⟩

/-- One iteration of the `for name, value := range settings` loop of
`eatPill` (`switch name`): the "nice" case and unknown keys only log, so
both land in the final else; a failing call is only logged, the loop
continues.  The last accumulator component is the panic flag: once a call
has panicked the daemon is dead, so no further setting is dispatched. -/
def applySetting (bus : Bus)
    (acc : Option Nat × List (Option Nat) × List Ev × Bool)
    (kv : String × String) : Option Nat × List (Option Nat) × List Ev × Bool :=
  if acc.2.2.2 then acc
  else if kv.1 = "scx" then
    let r := setScx bus acc.1 acc.2.1 kv.2
    (r.conn, r.results, acc.2.2.1 ++ r.trace, r.panicked)
  else if kv.1 = "tuned" then
    let r := setTunedProfile bus acc.1 acc.2.1 kv.2
    (r.conn, r.results, acc.2.2.1 ++ r.trace, r.panicked)
  else acc

/-- Result of `eatPill` / `scanProcesses`: new manager state, remaining
connection outcomes, event trace, and whether the daemon panicked during
the pass (unchecked tuned `profiles` failure).  When `panicked = true`
the process died mid-call: the state fields record what had been done up
to the panic and no later statement of the Go code ran. -/
structure ScanResult where
  pm : PillManager
  results : List (Option Nat)
  trace : List Ev
  panicked : Bool
deriving Repr

/-- `eatPill` (pill_manager.go lines 232-283): dispatch every declared
setting (errors only logged), clear every cached `Reniced` flag, recompute
anchor and valid parent (0 when no process is given), set the current
pill.  A panic inside the settings loop (unchecked tuned `profiles`
failure) kills the daemon before the flag reset, the anchor update and
the pill assignment: in that case the manager state is returned as it was
at the moment of the panic. -/
def eatPill (env : Env) (pm : PillManager) (results : List (Option Nat))
    (p : Option Int) (pillName : String) : ScanResult :=
  let settings := (alookup pm.Pillz pillName).getD []
  let acc := settings.foldl (applySetting env.bus)
    (pm.dbusConn, results, [Ev.eat p pillName], false)
  if acc.2.2.2 then
    ⟨{ pm with dbusConn := acc.1 }, acc.2.1, acc.2.2.1, true⟩
  else
    let known := pm.knownProcs.map (fun kv => (kv.1, { kv.2 with Reniced := false }))
    match p with
    | some q =>
      ⟨{ pm with
          dbusConn := acc.1
          knownProcs := known
          currentProc := q
          currentParent := getValidParent env q
          CurrentPill := pillName }, acc.2.1, acc.2.2.1, false⟩
    | none =>
      ⟨{ pm with
          dbusConn := acc.1
          knownProcs := known
          currentProc := 0
          currentParent := 0
          CurrentPill := pillName }, acc.2.1, acc.2.2.1, false⟩

/-- `parentExists && parentInfo.Reniced` of `reniceCheck`. -/
def parentRenicedIn (known : List (Int × ProcessInfo)) (ppid : Int) : Bool :=
  match alookup known ppid with
  | some parentInfo => parentInfo.Reniced
  | none => false

/-- `reniceCheck` (actions.go lines 109-145): uncached pid or already
reniced or unresolvable parent is a no-op; otherwise, when the parent is
flagged reniced, or the parent pid equals the stored valid parent, or the
pid equals the stored anchor, issue `Setpriority`; the flag is set only on
success. -/
def reniceCheck (env : Env) (known : List (Int × ProcessInfo))
    (curProc curPar : Int) (pid : Int) (nice : Int) :
    List (Int × ProcessInfo) × List Ev :=
  match alookup known pid with
  | none => (known, [])
  | some info =>
    if info.Reniced then (known, [])
    else
      match env.parent pid with
      | none => (known, [])
      | some ppid =>
        if parentRenicedIn known ppid = true ∨ ppid = curPar ∨ pid = curProc then
          if env.setpriorityOk pid then
            (aupdate known pid { info with Reniced := true },
             [Ev.setpriority pid nice])
          else (known, [Ev.setpriority pid nice])
        else (known, [])

/-- The `nice` value `scanProcesses` works with: present in the current
pill, current pill not "default", numeric, in [-20, 20]; otherwise none
(Go: `isNice = false`). -/
def effectiveNice (pm : PillManager) : Option Int :=
  match (alookup pm.Pillz pm.CurrentPill).bind (fun s => alookup s "nice") with
  | none => none
  | some niceStr =>
    if pm.CurrentPill = "default" then none
    else
      match goAtoi niceStr with
      | none => none
      | some n => if n < -20 ∨ 20 < n then none else some n

/-- Mutable locals of the scan loop of `scanProcesses`. -/
structure LoopState where
  known : List (Int × ProcessInfo)
  seen : List Int
  shouldKeep : Bool
  newPill : String
  triggerProc : Option Int
  trace : List Ev
deriving Repr

/-- Trigger-matching block of the scan loop (guarded by
`!shouldKeepCurrentPill`). -/
def triggerStep (pm : PillManager) (st : LoopState) (pid : Int)
    (info : ProcessInfo) : LoopState :=
  if st.shouldKeep then st
  else
    let pillName := checkTriggerMatch pm.Triggers info.Cmdline
    if pillName = "" then st
    else if pillName = pm.CurrentPill then
      { st with shouldKeep := true, triggerProc := some pid }
    else if (alookup pm.Pillz pillName).isSome then
      { st with newPill := pillName, triggerProc := some pid }
    else st

/-- Renice block of the scan loop (guarded by `isNice && !procInfo.Reniced`). -/
def reniceStep (env : Env) (pm : PillManager) (niceOpt : Option Int)
    (st : LoopState) (pid : Int) (info : ProcessInfo) : LoopState :=
  match niceOpt with
  | none => st
  | some nice =>
    if info.Reniced then st
    else
      let r := reniceCheck env st.known pm.currentProc pm.currentParent pid nice
      { st with known := r.1, trace := st.trace ++ r.2 }

/-- Tail of one scan-loop iteration once the cache record is at hand:
mark the pid seen, run the trigger block, run the renice block. -/
def afterCache (env : Env) (pm : PillManager) (niceOpt : Option Int)
    (st : LoopState) (pid : Int) (info : ProcessInfo) : LoopState :=
  reniceStep env pm niceOpt
    (triggerStep pm { st with seen := pid :: st.seen } pid info) pid info

/-- One iteration of the `for _, p := range processes` loop: cached pids
skip resolution; an unresolvable user or a non-owned process is skipped
entirely (and not cached); a fresh owned pid is resolved once and cached. -/
def scanStep (env : Env) (pm : PillManager) (niceOpt : Option Int)
    (st : LoopState) (pid : Int) : LoopState :=
  match alookup st.known pid with
  | some info => afterCache env pm niceOpt st pid info
  | none =>
    match env.username pid with
    | none => st
    | some pUser =>
      if pUser = pm.userName then
        let pCmd := (env.cmdline pid).getD ""
        let pName := (env.pname pid).getD "unknown"
        let info : ProcessInfo := ⟨pName, pCmd, pUser, false⟩
        afterCache env pm niceOpt { st with known := st.known ++ [(pid, info)] } pid info
      else st

/-- The scan loop over the enumerated pid list. -/
def scanLoop (env : Env) (pm : PillManager) (niceOpt : Option Int) :
    List Int → LoopState → LoopState
  | [], st => st
  | pid :: rest, st => scanLoop env pm niceOpt rest (scanStep env pm niceOpt st pid)

/-- Loop state on entry to the scan loop: cached processes, empty seen
set, `shouldKeepCurrentPill`/`triggerProcess` from the initial
`process.NewProcess(pm.currentProc)` liveness probe. -/
def initLoopState (pm : PillManager) (processes : List Int) : LoopState :=
  ⟨pm.knownProcs, [], decide (pm.currentProc ∈ processes), "",
   if pm.currentProc ∈ processes then some pm.currentProc else none, []⟩

/-- The cache purge after the pass: keep only records whose pid was seen. -/
def pruneKnown (st : LoopState) : List (Int × ProcessInfo) :=
  st.known.filter (fun kv => decide (kv.1 ∈ st.seen))

/-- The trigger-and-pills decision at the end of `scanProcesses` (`pm2`
already carries the pruned cache): revert to default / switch pill / adopt
a new anchor process for the kept pill. -/
def scanDecision (env : Env) (pm2 : PillManager) (st : LoopState) : ScanResult :=
  if st.shouldKeep = false ∧ pm2.CurrentPill ≠ "default" then
    let r := eatPill env pm2 env.connectResults none "default"
    ⟨r.pm, r.results, st.trace ++ r.trace, r.panicked⟩
  else if st.newPill ≠ "" ∧ st.newPill ≠ pm2.CurrentPill then
    let r := eatPill env pm2 env.connectResults st.triggerProc st.newPill
    ⟨r.pm, r.results, st.trace ++ r.trace, r.panicked⟩
  else
    match st.triggerProc with
    | some q =>
      if st.shouldKeep = true ∧ q ≠ pm2.currentProc then
        ⟨{ pm2 with currentProc := q, currentParent := getValidParent env q },
          env.connectResults, st.trace, false⟩
      else ⟨pm2, env.connectResults, st.trace, false⟩
    | none => ⟨pm2, env.connectResults, st.trace, false⟩

/-- `scanProcesses` (pill_manager.go lines 102-229): bail out on an
enumeration error; check whether the stored anchor pid still exists;
compute the effective nice; loop over the processes; prune the cache down
to the pids seen; then run the three-way decision. -/
def scanProcesses (env : Env) (pm : PillManager) : ScanResult :=
  match env.procs with
  | none => ⟨pm, env.connectResults, [], false⟩
  | some processes =>
    let st := scanLoop env pm (effectiveNice pm) processes (initLoopState pm processes)
    scanDecision env { pm with knownProcs := pruneKnown st } st

/-- The command line the scan loop attributes to pid `q`: the cached one
when `q` is cached, otherwise the one the OS reports (empty on error). -/
def cmdView (env : Env) (known : List (Int × ProcessInfo)) (q : Int) : String :=
  match alookup known q with
  | some info => info.Cmdline
  | none => (env.cmdline q).getD ""

/-- `reniceCheck` eligibility as the spec phrases it, plus the
parent-resolvability requirement the code imposes. -/
def eligibleRenice (env : Env) (known : List (Int × ProcessInfo))
    (curProc curPar pid : Int) : Prop :=
  ∃ ppid, env.parent pid = some ppid ∧
    (parentRenicedIn known ppid = true ∨ ppid = curPar ∨ pid = curProc)

/-! Event classifiers used by the theorems. -/

def isConnectAttemptEv : Ev → Bool
  | Ev.connectAttempt _ => true
  | _ => false

def isFailedConnectEv : Ev → Bool
  | Ev.connectAttempt false => true
  | _ => false

def isSleepEv : Ev → Bool
  | Ev.sleep => true
  | _ => false

def isTunedSwitchEv : Ev → Bool
  | Ev.tunedSwitch _ => true
  | _ => false

/-- A scheduler-changing call: `SwitchScheduler` or `StopScheduler`. -/
def isSchedCallEv : Ev → Bool
  | Ev.scxSwitch _ _ => true
  | Ev.scxStop => true
  | _ => false

def isSetpriorityEv : Ev → Bool
  | Ev.setpriority _ _ => true
  | _ => false

def isEatEv : Ev → Bool
  | Ev.eat _ _ => true
  | _ => false

/-- Events the external-control bridge may emit (no priority change, no
profile application of its own). -/
def isBusEv : Ev → Bool
  | Ev.setpriority _ _ => false
  | Ev.eat _ _ => false
  | _ => true

/-! Concrete instances used by counterexamples and witnesses. -/

/-- A bus on which every call succeeds. -/
def busOk : Bus := ⟨["gaming"], true, fun _ => true, ["lavd"], true, fun _ _ => true, true⟩

/-- A bus that advertises the profile "gaming" but fails the switch call. -/
def busFailTuned : Bus :=
  ⟨["gaming"], true, fun _ => false, ["lavd"], true, fun _ _ => true, true⟩

/-- A bus on which the tuned capability-list (`profiles`) query itself
fails — the call whose result actions.go indexes without an error check. -/
def busListFail : Bus :=
  ⟨["gaming"], false, fun _ => true, ["lavd"], true, fun _ _ => true, true⟩

/-- C1 counterexample: anchor pid 100 still alive, pid 200 matches the
trigger of the distinct existing profile "other". -/
def envKeepAnchor : Env :=
  ⟨some [100, 200],
   fun p => if p = 100 ∨ p = 200 then some "u" else none,
   fun p => if p = 100 then some "/bin/game.exe" else
     if p = 200 then some "/bin/other.exe" else none,
   fun _ => some "x",
   fun _ => none,
   fun _ => true,
   busOk, []⟩

def pmKeepAnchor : PillManager :=
  ⟨[("game.exe", "game"), ("other.exe", "other")],
   [("default", []), ("game", []), ("other", [])],
   none, "game", 100, 50, "u", []⟩

/-- C1 witness: anchor absent, current pill "default", pid 200 matches the
trigger of the existing profile "game". -/
def envSwitch : Env :=
  ⟨some [200],
   fun p => if p = 200 then some "u" else none,
   fun p => if p = 200 then some "/opt/game.exe --fullscreen" else none,
   fun _ => some "x",
   fun _ => none,
   fun _ => true,
   busOk, []⟩

def pmSwitch : PillManager :=
  ⟨[("game.exe", "game")],
   [("default", []), ("game", [])],
   none, "default", 0, 0, "u", []⟩

/-- C2 failing input: the parent of pid 100 is pid 1 named "systemd". -/
def envDenylist : Env :=
  ⟨some [100], fun _ => some "u", fun _ => some "c",
   fun p => if p = 1 then some "systemd" else some "x",
   fun p => if p = 100 then some 1 else none,
   fun _ => true, busOk, []⟩

/-- C4 counterexample: pid 100 is the anchor but its parent is
unresolvable. -/
def envNoParent : Env :=
  ⟨some [100], fun _ => some "u", fun _ => some "c", fun _ => some "x",
   fun _ => none, fun _ => true, busOk, []⟩

def knownAnchor : List (Int × ProcessInfo) := [(100, ⟨"n", "c", "u", false⟩)]

/-- C4/C9 witness environment: pid 100 has parent 5, `Setpriority`
succeeds. -/
def envRenice : Env :=
  ⟨some [100], fun _ => some "u", fun _ => some "c", fun _ => some "x",
   fun p => if p = 100 then some 5 else none,
   fun _ => true, busOk, []⟩

/-- C9 witness environment: like `envRenice` but `Setpriority` fails. -/
def envReniceFail : Env :=
  ⟨some [100], fun _ => some "u", fun _ => some "c", fun _ => some "x",
   fun p => if p = 100 then some 5 else none,
   fun _ => false, busOk, []⟩

/-- C5 witness: current pill is "default" and its definition carries a
nice key. -/
def pmDefaultNice : PillManager :=
  ⟨[], [("default", [("nice", "-5")])], none, "default", 0, 0, "u", []⟩

def envOneProc : Env :=
  ⟨some [100], fun _ => some "u", fun _ => some "c", fun _ => some "x",
   fun _ => none, fun _ => true, busOk, []⟩

/-- C6 counterexample: anchor pid 100 absent but pid 200 matches the
trigger bound to the current pill "game". -/
def envRematch : Env :=
  ⟨some [200],
   fun p => if p = 200 then some "u" else none,
   fun p => if p = 200 then some "/x/game.exe" else none,
   fun _ => some "x",
   fun _ => none,
   fun _ => true,
   busOk, []⟩

def pmRematch : PillManager :=
  ⟨[("game.exe", "game")], [("default", []), ("game", [])],
   none, "game", 100, 50, "u", []⟩

/-- C6 witness: anchor pid 100 absent, no process at all. -/
def envEmpty : Env :=
  ⟨some [], fun _ => none, fun _ => none, fun _ => none, fun _ => none,
   fun _ => true, busOk, []⟩

/-- C7 witness: stale pid 50 cached, only pid 60 alive. -/
def envPrune : Env :=
  ⟨some [60], fun p => if p = 60 then some "u" else none,
   fun _ => some "c", fun _ => some "x", fun _ => none,
   fun _ => true, busOk, []⟩

def pmPrune : PillManager :=
  ⟨[], [("default", [])], none, "default", 0, 0, "u",
   [(50, ⟨"old", "oldcmd", "u", false⟩)]⟩

/-- C8 environment: pid 70 owned by the daemon user, pid 80 owned by
root. -/
def envOwnership : Env :=
  ⟨some [70, 80],
   fun p => if p = 70 then some "u" else if p = 80 then some "root" else none,
   fun p => if p = 70 then some "cmd70" else some "cmd80",
   fun _ => some "x",
   fun _ => none,
   fun _ => true,
   busOk, []⟩

def pmOwnership : PillManager :=
  ⟨[], [("default", [])], none, "default", 0, 0, "u", []⟩

/-- C10 witness: process enumeration fails. -/
def envEnumFail : Env :=
  ⟨none, fun _ => none, fun _ => none, fun _ => none, fun _ => none,
   fun _ => true, busOk, []⟩

/-! ### Association-list lemmas -/

theorem alookup_append_of_some {α β : Type} [DecidableEq α]
    {l : List (α × β)} {q : α} {r : β} (h : alookup l q = some r)
    (l2 : List (α × β)) : alookup (l ++ l2) q = some r := by
  induction l with
  | nil => simp [alookup] at h
  | cons kv rest ih =>
    obtain ⟨k, v⟩ := kv
    simp only [alookup, List.cons_append] at h ⊢
    by_cases hk : k = q
    · simpa [hk] using h
    · simp only [hk, if_false] at h ⊢
      exact ih h

theorem alookup_append_of_none {α β : Type} [DecidableEq α]
    {l : List (α × β)} {q : α} (h : alookup l q = none)
    (l2 : List (α × β)) : alookup (l ++ l2) q = alookup l2 q := by
  induction l with
  | nil => simp
  | cons kv rest ih =>
    obtain ⟨k, v⟩ := kv
    simp only [alookup, List.cons_append] at h ⊢
    by_cases hk : k = q
    · simp [hk] at h
    · simp only [hk, if_false] at h ⊢
      exact ih h

theorem alookup_aupdate {α β : Type} [DecidableEq α]
    (l : List (α × β)) (k q : α) (v : β) :
    alookup (aupdate l k v) q =
      if q = k then ((alookup l k).map fun _ => v) else alookup l q := by
  induction l with
  | nil => by_cases hq : q = k <;> simp [aupdate, alookup, hq]
  | cons kv rest ih =>
    obtain ⟨a, b⟩ := kv
    by_cases ha : a = k
    · subst ha
      by_cases hq : q = a
      · simp [aupdate, alookup, hq]
      · have ha2 : ¬ a = q := fun h => hq h.symm
        simp [aupdate, alookup, hq, ha2]
    · by_cases hq : q = a
      · subst hq
        have hqk : ¬ q = k := ha
        simp [aupdate, alookup, ha, hqk]
      · by_cases hqk : q = k
        · subst hqk
          simp [aupdate, alookup, ha, Ne.symm hq, ih]
        · simp [aupdate, alookup, ha, Ne.symm hq, ih, hqk]

theorem alookup_isSome_append {α β : Type} [DecidableEq α]
    {l : List (α × β)} {q : α} (h : (alookup l q).isSome = true)
    (l2 : List (α × β)) : (alookup (l ++ l2) q).isSome = true := by
  obtain ⟨r, hr⟩ := Option.isSome_iff_exists.mp h
  rw [alookup_append_of_some hr]
  rfl

theorem alookup_mem {α β : Type} [DecidableEq α]
    {l : List (α × β)} {q : α} {r : β} (h : alookup l q = some r) :
    (q, r) ∈ l := by
  induction l with
  | nil => simp [alookup] at h
  | cons kv rest ih =>
    obtain ⟨k, v⟩ := kv
    simp only [alookup] at h
    by_cases hk : k = q
    · rw [if_pos hk] at h
      injection h with hv
      exact List.mem_cons.mpr (Or.inl (by rw [← hk, ← hv]))
    · rw [if_neg hk] at h
      exact List.mem_cons_of_mem _ (ih h)

/-! ### `reniceCheck` lemmas -/

theorem reniceCheck_of_reniced (env : Env) (known : List (Int × ProcessInfo))
    (curProc curPar pid nice : Int) (info : ProcessInfo)
    (h1 : alookup known pid = some info) (h2 : info.Reniced = true) :
    reniceCheck env known curProc curPar pid nice = (known, []) := by
  simp [reniceCheck, h1, h2]

theorem reniceCheck_cases (env : Env) (known : List (Int × ProcessInfo))
    (curProc curPar pid nice : Int) :
    (reniceCheck env known curProc curPar pid nice).1 = known ∨
    ∃ info, alookup known pid = some info ∧
      (reniceCheck env known curProc curPar pid nice).1 =
        aupdate known pid { info with Reniced := true } := by
  unfold reniceCheck
  cases h : alookup known pid with
  | none => exact Or.inl rfl
  | some info =>
    by_cases hr : info.Reniced
    · simp [hr]
    · simp only [hr, Bool.false_eq_true, if_false]
      cases hp : env.parent pid with
      | none => exact Or.inl rfl
      | some ppid =>
        by_cases he : parentRenicedIn known ppid = true ∨ ppid = curPar ∨ pid = curProc
        · by_cases hs : env.setpriorityOk pid
          · exact Or.inr ⟨info, rfl, by simp [he, hs]⟩
          · simp [he, hs]
        · simp [he]

theorem reniceCheck_trace_sub (env : Env) (known : List (Int × ProcessInfo))
    (curProc curPar pid nice : Int) {e : Ev}
    (h : e ∈ (reniceCheck env known curProc curPar pid nice).2) :
    e = Ev.setpriority pid nice := by
  unfold reniceCheck at h
  cases hl : alookup known pid with
  | none => simp [hl] at h
  | some info =>
    rw [hl] at h
    by_cases hr : info.Reniced
    · simp [hr] at h
    · simp only [hr, Bool.false_eq_true, if_false] at h
      cases hp : env.parent pid with
      | none => simp [hp] at h
      | some ppid =>
        rw [hp] at h
        by_cases he : parentRenicedIn known ppid = true ∨ ppid = curPar ∨ pid = curProc
        · by_cases hs : env.setpriorityOk pid <;> simp [he, hs] at h <;> exact h
        · simp [he] at h

/-! ### Trace lemmas for the bridge, `eatPill` and the scan loop -/

theorem connectLoop_mem (n : Nat) (res : List (Option Nat)) {e : Ev}
    (h : e ∈ (connectLoop n res).2.2) :
    e = Ev.connectAttempt true ∨ e = Ev.connectAttempt false ∨ e = Ev.sleep := by
  induction n generalizing res with
  | zero => simp [connectLoop] at h
  | succ n ih =>
    unfold connectLoop at h
    cases res with
    | nil =>
      rcases List.mem_cons.mp h with h1 | h1
      · exact Or.inr (Or.inl h1)
      · rcases List.mem_cons.mp h1 with h2 | h2
        · exact Or.inr (Or.inr h2)
        · exact ih _ h2
    | cons outcome rest =>
      cases outcome with
      | some c =>
        rcases List.mem_cons.mp h with h1 | h1
        · exact Or.inl h1
        · simp at h1
      | none =>
        rcases List.mem_cons.mp h with h1 | h1
        · exact Or.inr (Or.inl h1)
        · rcases List.mem_cons.mp h1 with h2 | h2
          · exact Or.inr (Or.inr h2)
          · exact ih _ h2

theorem connectToDbus_mem (conn : Option Nat) (res : List (Option Nat)) {e : Ev}
    (h : e ∈ (connectToDbus conn res).trace) :
    e = Ev.connectAttempt true ∨ e = Ev.connectAttempt false ∨ e = Ev.sleep := by
  cases conn with
  | some c => simp [connectToDbus] at h
  | none => exact connectLoop_mem 3 res h

theorem setTunedProfile_mem (bus : Bus) (conn : Option Nat)
    (res : List (Option Nat)) (profile : String) {e : Ev}
    (h : e ∈ (setTunedProfile bus conn res profile).trace) :
    isBusEv e = true := by
  have hconn : ∀ x ∈ (connectToDbus conn res).trace, isBusEv x = true := by
    intro x hx
    rcases connectToDbus_mem conn res hx with h1 | h1 | h1 <;> subst h1 <;> rfl
  simp only [setTunedProfile] at h
  split at h
  · exact hconn e h
  · split at h
    · rcases List.mem_append.mp h with h1 | h1
      · exact hconn e h1
      · rcases List.mem_cons.mp h1 with h2 | h2
        · subst h2; rfl
        · simp at h2
    · split at h
      · rcases List.mem_append.mp h with h1 | h1
        · exact hconn e h1
        · rcases List.mem_cons.mp h1 with h2 | h2
          · subst h2; rfl
          · rcases List.mem_cons.mp h2 with h3 | h3
            · subst h3; rfl
            · simp at h3
      · rcases List.mem_append.mp h with h1 | h1
        · exact hconn e h1
        · rcases List.mem_cons.mp h1 with h2 | h2
          · subst h2; rfl
          · simp at h2

theorem setScx_mem (bus : Bus) (conn : Option Nat)
    (res : List (Option Nat)) (scx : String) {e : Ev}
    (h : e ∈ (setScx bus conn res scx).trace) :
    isBusEv e = true := by
  have hconn : ∀ x ∈ (connectToDbus conn res).trace, isBusEv x = true := by
    intro x hx
    rcases connectToDbus_mem conn res hx with h1 | h1 | h1 <;> subst h1 <;> rfl
  simp only [setScx] at h
  split at h
  · exact hconn e h
  · split at h
    · rcases List.mem_append.mp h with h1 | h1
      · exact hconn e h1
      · rcases List.mem_cons.mp h1 with h2 | h2
        · subst h2; rfl
        · simp at h2
    · split at h
      · rcases List.mem_append.mp h with h1 | h1
        · exact hconn e h1
        · rcases List.mem_cons.mp h1 with h2 | h2
          · subst h2; rfl
          · simp at h2
      · split at h
        · rcases List.mem_append.mp h with h1 | h1
          · exact hconn e h1
          · rcases List.mem_cons.mp h1 with h2 | h2
            · subst h2; rfl
            · rcases List.mem_cons.mp h2 with h3 | h3
              · subst h3; rfl
              · simp at h3
        · rcases List.mem_append.mp h with h1 | h1
          · exact hconn e h1
          · rcases List.mem_cons.mp h1 with h2 | h2
            · subst h2; rfl
            · simp at h2

theorem foldl_applySetting_trace (bus : Bus) (settings : List (String × String))
    (conn : Option Nat) (res : List (Option Nat)) (tr0 : List Ev) (pk : Bool) :
    ∃ tl, (settings.foldl (applySetting bus) (conn, res, tr0, pk)).2.2.1 = tr0 ++ tl ∧
      ∀ e ∈ tl, isBusEv e = true := by
  induction settings generalizing conn res tr0 pk with
  | nil => exact ⟨[], by simp, by simp⟩
  | cons kv rest ih =>
    rw [List.foldl_cons]
    simp only [applySetting]
    split
    · exact ih conn res tr0 pk
    · split
      · obtain ⟨tl, htl, hbus⟩ :=
          ih (setScx bus conn res kv.2).conn (setScx bus conn res kv.2).results
            (tr0 ++ (setScx bus conn res kv.2).trace) (setScx bus conn res kv.2).panicked
        refine ⟨(setScx bus conn res kv.2).trace ++ tl, by simp [htl], ?_⟩
        intro e he
        rcases List.mem_append.mp he with h1 | h1
        · exact setScx_mem bus conn res kv.2 h1
        · exact hbus e h1
      · split
        · obtain ⟨tl, htl, hbus⟩ :=
            ih (setTunedProfile bus conn res kv.2).conn
              (setTunedProfile bus conn res kv.2).results
              (tr0 ++ (setTunedProfile bus conn res kv.2).trace)
              (setTunedProfile bus conn res kv.2).panicked
          refine ⟨(setTunedProfile bus conn res kv.2).trace ++ tl, by simp [htl], ?_⟩
          intro e he
          rcases List.mem_append.mp he with h1 | h1
          · exact setTunedProfile_mem bus conn res kv.2 h1
          · exact hbus e h1
        · exact ih conn res tr0 pk

theorem eatPill_trace (env : Env) (pm : PillManager) (res : List (Option Nat))
    (p : Option Int) (pillName : String) :
    ∃ tl, (eatPill env pm res p pillName).trace = Ev.eat p pillName :: tl ∧
      ∀ e ∈ tl, isBusEv e = true := by
  obtain ⟨tl, htl, hbus⟩ :=
    foldl_applySetting_trace env.bus ((alookup pm.Pillz pillName).getD [])
      pm.dbusConn res [Ev.eat p pillName] false
  refine ⟨tl, ?_, hbus⟩
  simp only [eatPill]
  split
  · exact htl
  · cases p <;> simpa using htl

theorem setScx_not_panicked (bus : Bus) (conn : Option Nat)
    (res : List (Option Nat)) (scx : String) :
    (setScx bus conn res scx).panicked = false := by
  simp only [setScx]
  split
  · rfl
  · split
    · rfl
    · split
      · rfl
      · split
        · rfl
        · rfl

theorem setTunedProfile_not_panicked (bus : Bus) (conn : Option Nat)
    (res : List (Option Nat)) (profile : String) (hl : bus.tunedListOk = true) :
    (setTunedProfile bus conn res profile).panicked = false := by
  simp only [setTunedProfile]
  split
  · rfl
  · split
    · rename_i h2
      rw [hl] at h2
      simp at h2
    · split
      · rfl
      · rfl

theorem setTunedProfile_panicked (bus : Bus) (c : Nat)
    (res : List (Option Nat)) (profile : String) (hl : bus.tunedListOk = false) :
    (setTunedProfile bus (some c) res profile).panicked = true ∧
    (setTunedProfile bus (some c) res profile).trace = [Ev.tunedList] := by
  simp [setTunedProfile, connectToDbus, hl]

theorem foldl_applySetting_panicked (bus : Bus) (hl : bus.tunedListOk = true)
    (settings : List (String × String)) :
    ∀ (conn : Option Nat) (res : List (Option Nat)) (tr0 : List Ev) (pk : Bool),
    (settings.foldl (applySetting bus) (conn, res, tr0, pk)).2.2.2 = pk := by
  induction settings with
  | nil =>
    intro conn res tr0 pk
    rfl
  | cons kv rest ih =>
    intro conn res tr0 pk
    rw [List.foldl_cons]
    simp only [applySetting]
    cases pk with
    | true =>
      rw [if_pos rfl]
      exact ih conn res tr0 true
    | false =>
      rw [if_neg (by simp)]
      split
      · rw [setScx_not_panicked bus conn res kv.2]
        exact ih _ _ _ _
      · split
        · rw [setTunedProfile_not_panicked bus conn res kv.2 hl]
          exact ih _ _ _ _
        · exact ih conn res tr0 false

theorem eatPill_not_panicked (env : Env) (pm : PillManager) (res : List (Option Nat))
    (p : Option Int) (pillName : String) (hl : env.bus.tunedListOk = true) :
    (eatPill env pm res p pillName).panicked = false := by
  simp only [eatPill]
  split
  · rename_i h
    rw [foldl_applySetting_panicked env.bus hl] at h
    simp at h
  · cases p <;> rfl

/-- The cache key set is preserved by `eatPill`: flags are cleared on the
no-panic path, and a panic leaves the cache untouched. -/
theorem eatPill_known (env : Env) (pm : PillManager) (res : List (Option Nat))
    (p : Option Int) (pillName : String) :
    (eatPill env pm res p pillName).pm.knownProcs =
      pm.knownProcs.map (fun kv => (kv.1, { kv.2 with Reniced := false })) ∨
    (eatPill env pm res p pillName).pm.knownProcs = pm.knownProcs := by
  simp only [eatPill]
  split
  · exact Or.inr rfl
  · cases p <;> exact Or.inl (by simp)

/-- Post-state of a completed (non-panicking) `eatPill`. -/
theorem eatPill_pm (env : Env) (pm : PillManager) (res : List (Option Nat))
    (p : Option Int) (pillName : String)
    (hnp : (eatPill env pm res p pillName).panicked = false) :
    (eatPill env pm res p pillName).pm.CurrentPill = pillName ∧
    (eatPill env pm res p pillName).pm.knownProcs =
      pm.knownProcs.map (fun kv => (kv.1, { kv.2 with Reniced := false })) ∧
    (p = none → (eatPill env pm res p pillName).pm.currentProc = 0 ∧
      (eatPill env pm res p pillName).pm.currentParent = 0) ∧
    (∀ r, p = some r → (eatPill env pm res p pillName).pm.currentProc = r) := by
  simp only [eatPill] at hnp ⊢
  split at hnp
  · simp at hnp
  · rename_i hpk
    rw [if_neg hpk]
    cases p <;> simp

/-! ### Scan-loop structural lemmas -/

theorem triggerStep_parts (pm : PillManager) (st : LoopState) (pid : Int)
    (info : ProcessInfo) :
    (triggerStep pm st pid info).known = st.known ∧
    (triggerStep pm st pid info).seen = st.seen ∧
    (triggerStep pm st pid info).trace = st.trace := by
  simp only [triggerStep]
  split
  · exact ⟨rfl, rfl, rfl⟩
  · split
    · exact ⟨rfl, rfl, rfl⟩
    · split
      · exact ⟨rfl, rfl, rfl⟩
      · split
        · exact ⟨rfl, rfl, rfl⟩
        · exact ⟨rfl, rfl, rfl⟩

theorem reniceStep_parts (env : Env) (pm : PillManager) (niceOpt : Option Int)
    (st : LoopState) (pid : Int) (info : ProcessInfo) :
    (reniceStep env pm niceOpt st pid info).seen = st.seen ∧
    (reniceStep env pm niceOpt st pid info).shouldKeep = st.shouldKeep ∧
    (reniceStep env pm niceOpt st pid info).newPill = st.newPill ∧
    (reniceStep env pm niceOpt st pid info).triggerProc = st.triggerProc := by
  cases niceOpt with
  | none => exact ⟨rfl, rfl, rfl, rfl⟩
  | some nice =>
    by_cases hr : info.Reniced = true <;> simp [reniceStep, hr]

theorem reniceStep_trace (env : Env) (pm : PillManager) (niceOpt : Option Int)
    (st : LoopState) (pid : Int) (info : ProcessInfo) :
    ∃ tl, (reniceStep env pm niceOpt st pid info).trace = st.trace ++ tl ∧
      ∀ e ∈ tl, isSetpriorityEv e = true := by
  cases niceOpt with
  | none => exact ⟨[], by simp [reniceStep], by simp⟩
  | some k =>
    by_cases hr : info.Reniced = true
    · exact ⟨[], by simp [reniceStep, hr], by simp⟩
    · refine ⟨(reniceCheck env st.known pm.currentProc pm.currentParent pid k).2,
        by simp [reniceStep, hr], ?_⟩
      intro e he
      rw [reniceCheck_trace_sub env st.known pm.currentProc pm.currentParent pid k he]
      rfl

theorem reniceStep_known (env : Env) (pm : PillManager) (niceOpt : Option Int)
    (st : LoopState) (pid : Int) (info : ProcessInfo) :
    (reniceStep env pm niceOpt st pid info).known = st.known ∨
    ∃ i, alookup st.known pid = some i ∧
      (reniceStep env pm niceOpt st pid info).known =
        aupdate st.known pid { i with Reniced := true } := by
  cases niceOpt with
  | none => exact Or.inl rfl
  | some k =>
    by_cases hr : info.Reniced = true
    · exact Or.inl (by simp [reniceStep, hr])
    · rcases reniceCheck_cases env st.known pm.currentProc pm.currentParent pid k with
        h | ⟨i, hi, h⟩
      · exact Or.inl (by simp [reniceStep, hr, h])
      · exact Or.inr ⟨i, hi, by simp [reniceStep, hr, h]⟩

theorem reniceStep_trace_none (env : Env) (pm : PillManager)
    (st : LoopState) (pid : Int) (info : ProcessInfo) :
    reniceStep env pm none st pid info = st := rfl

/-- Every way one scan-loop iteration can go: skipped entirely, processed
from the cache, or resolved afresh and cached (then processed). -/
theorem scanStep_split (env : Env) (pm : PillManager) (niceOpt : Option Int)
    (st : LoopState) (pid : Int) :
    (scanStep env pm niceOpt st pid = st ∧ alookup st.known pid = none ∧
      env.username pid ≠ some pm.userName) ∨
    (∃ info, alookup st.known pid = some info ∧
      scanStep env pm niceOpt st pid = afterCache env pm niceOpt st pid info) ∨
    (∃ info, alookup st.known pid = none ∧
      env.username pid = some pm.userName ∧
      info = ProcessInfo.mk ((env.pname pid).getD "unknown")
        ((env.cmdline pid).getD "") pm.userName false ∧
      scanStep env pm niceOpt st pid =
        afterCache env pm niceOpt
          { st with known := st.known ++ [(pid, info)] } pid info) := by
  unfold scanStep
  cases hl : alookup st.known pid with
  | some info => exact Or.inr (Or.inl ⟨info, rfl, rfl⟩)
  | none =>
    cases hu : env.username pid with
    | none => exact Or.inl ⟨rfl, rfl, by simp⟩
    | some pUser =>
      by_cases hq : pUser = pm.userName
      · subst hq
        exact Or.inr (Or.inr ⟨_, rfl, rfl, rfl, by simp⟩)
      · exact Or.inl ⟨if_neg hq, rfl, by simp [hq]⟩

theorem afterCache_trace (env : Env) (pm : PillManager) (niceOpt : Option Int)
    (st : LoopState) (pid : Int) (info : ProcessInfo) :
    ∃ tl, (afterCache env pm niceOpt st pid info).trace = st.trace ++ tl ∧
      ∀ e ∈ tl, isSetpriorityEv e = true := by
  unfold afterCache
  obtain ⟨tl, htl, hsp⟩ := reniceStep_trace env pm niceOpt
    (triggerStep pm { st with seen := pid :: st.seen } pid info) pid info
  refine ⟨tl, ?_, hsp⟩
  rw [htl, (triggerStep_parts pm { st with seen := pid :: st.seen } pid info).2.2]

theorem scanStep_trace (env : Env) (pm : PillManager) (niceOpt : Option Int)
    (st : LoopState) (pid : Int) :
    ∃ tl, (scanStep env pm niceOpt st pid).trace = st.trace ++ tl ∧
      ∀ e ∈ tl, isSetpriorityEv e = true := by
  rcases scanStep_split env pm niceOpt st pid with ⟨heq, _, _⟩ | ⟨info, _, heq⟩ |
    ⟨info, _, _, _, heq⟩
  · exact ⟨[], by rw [heq]; simp, by simp⟩
  · rw [heq]
    exact afterCache_trace env pm niceOpt st pid info
  · rw [heq]
    exact afterCache_trace env pm niceOpt
      { st with known := st.known ++ [(pid, info)] } pid info

theorem scanLoop_trace (env : Env) (pm : PillManager) (niceOpt : Option Int)
    (l : List Int) (st : LoopState) :
    ∃ tl, (scanLoop env pm niceOpt l st).trace = st.trace ++ tl ∧
      ∀ e ∈ tl, isSetpriorityEv e = true := by
  induction l generalizing st with
  | nil => exact ⟨[], by simp [scanLoop], by simp⟩
  | cons pid rest ih =>
    obtain ⟨tl1, h1, hs1⟩ := scanStep_trace env pm niceOpt st pid
    obtain ⟨tl2, h2, hs2⟩ := ih (scanStep env pm niceOpt st pid)
    refine ⟨tl1 ++ tl2, ?_, ?_⟩
    · rw [scanLoop, h2, h1, List.append_assoc]
    · intro e he
      rcases List.mem_append.mp he with h | h
      · exact hs1 e h
      · exact hs2 e h

theorem afterCache_trace_none (env : Env) (pm : PillManager)
    (st : LoopState) (pid : Int) (info : ProcessInfo) :
    (afterCache env pm none st pid info).trace = st.trace := by
  unfold afterCache
  rw [reniceStep_trace_none,
    (triggerStep_parts pm { st with seen := pid :: st.seen } pid info).2.2]

theorem scanStep_trace_none (env : Env) (pm : PillManager)
    (st : LoopState) (pid : Int) :
    (scanStep env pm none st pid).trace = st.trace := by
  rcases scanStep_split env pm none st pid with ⟨heq, _, _⟩ | ⟨info, _, heq⟩ |
    ⟨info, _, _, _, heq⟩ <;> rw [heq]
  · exact afterCache_trace_none env pm st pid info
  · exact afterCache_trace_none env pm
      { st with known := st.known ++ [(pid, info)] } pid info

theorem scanLoop_trace_none (env : Env) (pm : PillManager)
    (l : List Int) (st : LoopState) :
    (scanLoop env pm none l st).trace = st.trace := by
  induction l generalizing st with
  | nil => rfl
  | cons pid rest ih => rw [scanLoop, ih, scanStep_trace_none]

/-- Every event in the final trace is a loop event (`Setpriority`) or comes
from the at-most-one `eatPill` call of the decision. -/
theorem scanDecision_trace (env : Env) (pm2 : PillManager) (st : LoopState) {e : Ev}
    (h : e ∈ (scanDecision env pm2 st).trace) :
    e ∈ st.trace ∨ isBusEv e = true ∨
    (st.shouldKeep = false ∧ pm2.CurrentPill ≠ "default" ∧ e = Ev.eat none "default") ∨
    (st.newPill ≠ "" ∧ st.newPill ≠ pm2.CurrentPill ∧ e = Ev.eat st.triggerProc st.newPill) := by
  simp only [scanDecision] at h
  split at h
  · rename_i hcond
    obtain ⟨tl, htl, hbus⟩ := eatPill_trace env pm2 env.connectResults none "default"
    rw [htl] at h
    rcases List.mem_append.mp h with h1 | h1
    · exact Or.inl h1
    · rcases List.mem_cons.mp h1 with h2 | h2
      · exact Or.inr (Or.inr (Or.inl ⟨hcond.1, hcond.2, h2⟩))
      · exact Or.inr (Or.inl (hbus e h2))
  · split at h
    · rename_i hcond
      obtain ⟨tl, htl, hbus⟩ :=
        eatPill_trace env pm2 env.connectResults st.triggerProc st.newPill
      rw [htl] at h
      rcases List.mem_append.mp h with h1 | h1
      · exact Or.inl h1
      · rcases List.mem_cons.mp h1 with h2 | h2
        · exact Or.inr (Or.inr (Or.inr ⟨hcond.1, hcond.2, h2⟩))
        · exact Or.inr (Or.inl (hbus e h2))
    · split at h
      · split at h
        · exact Or.inl h
        · exact Or.inl h
      · exact Or.inl h

/-- With no effective nice value the cycle issues no `Setpriority` call. -/
theorem noSetpriority_of_noNice (env : Env) (pm : PillManager)
    (hnice : effectiveNice pm = none) :
    ∀ p n, Ev.setpriority p n ∉ (scanProcesses env pm).trace := by
  intro p n h
  unfold scanProcesses at h
  cases hp : env.procs with
  | none => rw [hp] at h; simp at h
  | some processes =>
    rw [hp] at h
    simp only at h
    rw [hnice] at h
    rcases scanDecision_trace env _ _ h with h1 | h1 | h1 | h1
    · rw [scanLoop_trace_none] at h1
      simp [initLoopState] at h1
    · simp [isBusEv] at h1
    · exact absurd h1.2.2 (by simp)
    · exact absurd h1.2.2 (by simp)

/-! ### Claims C2, C4, C9, C10 and the concrete counterexamples -/

/-- C2 (code_bug evidence): at the failing input — an anchor pid 100 whose
immediate parent (pid 1) resolves and is named "systemd", hence on the
opaque-ancestor denylist — `getValidParent` returns -1, not the anchor's
own pid 100 as the claim (and the function's own comment) state. -/
theorem C2_denylist_parent_returns_neg_one :
    getValidParent envDenylist 100 = -1 ∧ (-1 : Int) ≠ 100 := by
  constructor
  · rfl
  · decide

/-- C4 counterexample: pid 100 is the stored anchor (`pid = currentProc`),
is cached, unflagged, and a valid nice target is in force, yet no
`Setpriority` call is issued because its parent cannot be resolved —
refuting the claimed "if and only if". -/
theorem C4_counterexample :
    reniceCheck envNoParent knownAnchor 100 50 100 (-10) = (knownAnchor, []) := by
  rfl

/-- C4 (amended): for a cached, not-yet-flagged process, `reniceCheck`
issues a `Setpriority` call if and only if the parent pid resolves and
(the parent's cached record is flagged, or the parent pid equals the
stored valid parent, or the pid equals the stored anchor); an
already-flagged record is never reniced; and a scan whose effective nice
is absent (no nice key, current pill "default", non-numeric or
out-of-range value) issues no `Setpriority` call at all. -/
theorem C4_renice_eligibility (env : Env) (known : List (Int × ProcessInfo))
    (curProc curPar pid nice : Int) (info : ProcessInfo)
    (h1 : alookup known pid = some info) (h2 : info.Reniced = false) :
    (Ev.setpriority pid nice ∈ (reniceCheck env known curProc curPar pid nice).2 ↔
      eligibleRenice env known curProc curPar pid) ∧
    (∀ (known2 : List (Int × ProcessInfo)) (pid2 : Int) (info2 : ProcessInfo),
      alookup known2 pid2 = some info2 → info2.Reniced = true →
      reniceCheck env known2 curProc curPar pid2 nice = (known2, [])) ∧
    (∀ (env2 : Env) (pm2 : PillManager), effectiveNice pm2 = none →
      ∀ p n, Ev.setpriority p n ∉ (scanProcesses env2 pm2).trace) := by
  refine ⟨?_, ?_, ?_⟩
  · unfold reniceCheck
    rw [h1]
    simp only [h2, Bool.false_eq_true, if_false]
    constructor
    · intro hmem
      cases hp : env.parent pid with
      | none => rw [hp] at hmem; simp at hmem
      | some ppid =>
        rw [hp] at hmem
        by_cases he : parentRenicedIn known ppid = true ∨ ppid = curPar ∨ pid = curProc
        · exact ⟨ppid, hp, he⟩
        · simp [he] at hmem
    · rintro ⟨ppid, hp, he⟩
      rw [hp]
      by_cases hs : env.setpriorityOk pid <;> simp [he, hs]
  · intro known2 pid2 info2 hl hr
    exact reniceCheck_of_reniced env known2 curProc curPar pid2 nice info2 hl hr
  · intro env2 pm2 hnice p n
    exact noSetpriority_of_noNice env2 pm2 hnice p n

/-- C9: when `Setpriority` fails, `reniceCheck` leaves the cache — and in
particular the process's `Reniced` flag — untouched, so an eligible
process is re-attempted on every later cycle; the flag is set (only) after
a successful priority change of an eligible process. -/
theorem C9_renice_retry_policy (env : Env) (known : List (Int × ProcessInfo))
    (curProc curPar pid nice : Int) (info : ProcessInfo)
    (h1 : alookup known pid = some info) (h2 : info.Reniced = false) :
    (env.setpriorityOk pid = false →
      (reniceCheck env known curProc curPar pid nice).1 = known) ∧
    (∀ ppid, env.parent pid = some ppid →
      parentRenicedIn known ppid = true ∨ ppid = curPar ∨ pid = curProc →
      (reniceCheck env known curProc curPar pid nice).2 = [Ev.setpriority pid nice] ∧
      (env.setpriorityOk pid = true →
        alookup (reniceCheck env known curProc curPar pid nice).1 pid =
          some { info with Reniced := true })) := by
  constructor
  · intro hfail
    unfold reniceCheck
    rw [h1]
    simp only [h2, Bool.false_eq_true, if_false]
    cases hp : env.parent pid with
    | none => rfl
    | some ppid =>
      by_cases he : parentRenicedIn known ppid = true ∨ ppid = curPar ∨ pid = curProc
      · simp [he, hfail]
      · simp [he]
  · intro ppid hp he
    unfold reniceCheck
    rw [h1]
    simp only [h2, Bool.false_eq_true, if_false, hp]
    constructor
    · by_cases hs : env.setpriorityOk pid <;> simp [he, hs]
    · intro hok
      simp only [he, if_true, hok, if_pos rfl]
      simp [alookup_aupdate, h1]

/-- C10: when process enumeration fails, `scanProcesses` returns at once:
the whole manager state (cache, flags, current pill, anchor, valid parent)
is unchanged, no external call and no priority change is issued. -/
theorem C10_enumeration_failure_frame (env : Env) (pm : PillManager)
    (h : env.procs = none) :
    scanProcesses env pm = ⟨pm, env.connectResults, [], false⟩ := by
  unfold scanProcesses
  rw [h]

/-! ### Claim C3: the external-control bridge -/

theorem connectLoop_counts (n : Nat) (res : List (Option Nat)) :
    (connectLoop n res).2.2.countP isConnectAttemptEv ≤ n ∧
    (connectLoop n res).2.2.countP isSleepEv =
      (connectLoop n res).2.2.countP isFailedConnectEv := by
  induction n generalizing res with
  | zero => simp [connectLoop]
  | succ n ih =>
    cases res with
    | nil =>
      have h := ih []
      unfold connectLoop
      simp [List.countP_cons, isConnectAttemptEv, isFailedConnectEv, isSleepEv]
      omega
    | cons outcome rest =>
      cases outcome with
      | some c =>
        unfold connectLoop
        simp [List.countP_cons, List.countP_nil, isConnectAttemptEv,
          isFailedConnectEv, isSleepEv]
      | none =>
        have h := ih rest
        unfold connectLoop
        simp [List.countP_cons, isConnectAttemptEv, isFailedConnectEv, isSleepEv]
        omega

theorem connect_trace_countP (conn : Option Nat) (res : List (Option Nat))
    (p : Ev → Bool) (h1 : p (Ev.connectAttempt true) = false)
    (h2 : p (Ev.connectAttempt false) = false) (h3 : p Ev.sleep = false) :
    (connectToDbus conn res).trace.countP p = 0 := by
  refine List.countP_eq_zero.mpr ?_
  intro e he
  rcases connectToDbus_mem conn res he with h | h | h <;> subst h <;> simp [h1, h2, h3]

/-- C3 counterexample: with a live connection (handle 7) and a failing
`switch_profile` call, `setTunedProfile` returns the error at once: the
connection is neither dropped nor nulled, the switch call is issued
exactly once (no retry, no sleep) — refuting the claimed
drop-null-and-retry behaviour for failed remote calls. -/
theorem C3_counterexample :
    (setTunedProfile busFailTuned (some 7) [] "gaming").isErr = true ∧
    (setTunedProfile busFailTuned (some 7) [] "gaming").conn = some 7 ∧
    (setTunedProfile busFailTuned (some 7) [] "gaming").trace =
      [Ev.tunedList, Ev.tunedSwitch "gaming"] := by
  refine ⟨rfl, rfl, rfl⟩

/-- C3 (amended): the bounded retry with a fixed delay applies to
establishing the D-Bus connection (`connectToDbus`: at most 3 attempts,
one sleep after each failed attempt); an existing connection is kept as
is by both bridge operations, and each remote switch call is issued at
most once per invocation (no drop-null-retry of calls).  A failed
`SwitchScheduler`/`StopScheduler`/`GetProperty` or `switch_profile` call
is returned to the caller, who logs it and completes the profile
application, so those failures never terminate the scan loop — but the
tuned capability-list query is the exception: its reply body is indexed
without an error check, so when that one call fails the daemon panics. -/
theorem C3_bridge_behaviour (bus : Bus) (c : Nat) (conn : Option Nat)
    (res : List (Option Nat)) (profile scx : String) (env : Env)
    (pm : PillManager) (p : Option Int) (pill : String) :
    (setTunedProfile bus (some c) res profile).conn = some c ∧
    (setScx bus (some c) res scx).conn = some c ∧
    (setTunedProfile bus conn res profile).trace.countP isTunedSwitchEv ≤ 1 ∧
    (setScx bus conn res scx).trace.countP isSchedCallEv ≤ 1 ∧
    (connectToDbus none res).trace.countP isConnectAttemptEv ≤ 3 ∧
    (connectToDbus none res).trace.countP isSleepEv =
      (connectToDbus none res).trace.countP isFailedConnectEv ∧
    (setScx bus conn res scx).panicked = false ∧
    (bus.tunedListOk = true →
      (setTunedProfile bus conn res profile).panicked = false) ∧
    (bus.tunedListOk = false →
      (setTunedProfile bus (some c) res profile).panicked = true ∧
      (setTunedProfile bus (some c) res profile).trace = [Ev.tunedList]) ∧
    (env.bus.tunedListOk = true →
      (eatPill env pm res p pill).panicked = false ∧
      (eatPill env pm res p pill).pm.CurrentPill = pill) := by
  have hc0 : (connectToDbus conn res).trace.countP isTunedSwitchEv = 0 :=
    connect_trace_countP conn res isTunedSwitchEv rfl rfl rfl
  have hc1 : (connectToDbus conn res).trace.countP isSchedCallEv = 0 :=
    connect_trace_countP conn res isSchedCallEv rfl rfl rfl
  refine ⟨?_, ?_, ?_, ?_, ?_, ?_, setScx_not_panicked bus conn res scx,
    fun hl => setTunedProfile_not_panicked bus conn res profile hl,
    fun hl => setTunedProfile_panicked bus c res profile hl,
    fun hl => ?_⟩
  · simp only [setTunedProfile, connectToDbus]
    split
    · rfl
    · split
      · rfl
      · split <;> rfl
  · simp only [setScx, connectToDbus]
    split
    · rfl
    · split
      · rfl
      · split
        · rfl
        · split <;> rfl
  · simp only [setTunedProfile]
    split
    · simp [hc0]
    · split
      · simp [List.countP_append, List.countP_cons, hc0, isTunedSwitchEv]
      · split <;>
          simp [List.countP_append, List.countP_cons, hc0, isTunedSwitchEv]
  · simp only [setScx]
    split
    · simp [hc1]
    · split
      · simp [List.countP_append, List.countP_cons, hc1, isSchedCallEv]
      · split
        · simp [List.countP_append, List.countP_cons, hc1, isSchedCallEv]
        · split <;>
            simp [List.countP_append, List.countP_cons, hc1, isSchedCallEv]
  · simpa [connectToDbus] using (connectLoop_counts 3 res).1
  · simpa [connectToDbus] using (connectLoop_counts 3 res).2
  · have hnp := eatPill_not_panicked env pm res p pill hl
    exact ⟨hnp, (eatPill_pm env pm res p pill hnp).1⟩

/-! ### Claim C5: nice never applied on the default pill -/

theorem effectiveNice_default (pm : PillManager) (h : pm.CurrentPill = "default") :
    effectiveNice pm = none := by
  unfold effectiveNice
  cases (alookup pm.Pillz pm.CurrentPill).bind (fun s => alookup s "nice") with
  | none => rfl
  | some s => simp [h]

/-- C5: no `Setpriority` call is ever issued by a scan that starts with
the current pill "default" — even if the "default" definition carries a
nice key — and a nice value that parses to nothing or to an integer
outside [-20, 20] disables renicing for the cycle (the model is a total
function, so no crash is possible). -/
theorem C5_no_nice_on_default (env : Env) (pm : PillManager) :
    (pm.CurrentPill = "default" →
      ∀ p n, Ev.setpriority p n ∉ (scanProcesses env pm).trace) ∧
    (∀ s, (alookup pm.Pillz pm.CurrentPill).bind (fun l => alookup l "nice") = some s →
      (∀ k, goAtoi s = some k → k < -20 ∨ 20 < k) →
      ∀ p n, Ev.setpriority p n ∉ (scanProcesses env pm).trace) := by
  constructor
  · intro hdef
    exact noSetpriority_of_noNice env pm (effectiveNice_default pm hdef)
  · intro s hs hrange
    refine noSetpriority_of_noNice env pm ?_
    unfold effectiveNice
    rw [hs]
    by_cases hdef : pm.CurrentPill = "default"
    · simp [hdef]
    · simp only [hdef, if_false]
      cases hg : goAtoi s with
      | none => rfl
      | some k => simp [hrange k hg]

/-! ### Cache-evolution lemmas for the scan loop -/

theorem alookup_append_ne {l : List (Int × ProcessInfo)} (k q : Int)
    (v : ProcessInfo) (hq : k ≠ q) :
    alookup (l ++ [(k, v)]) q = alookup l q := by
  cases h : alookup l q with
  | some r => exact alookup_append_of_some h _
  | none =>
    rw [alookup_append_of_none h]
    simp [alookup, hq]

theorem alookup_filter_of_mem {l : List (Int × ProcessInfo)} {seen : List Int}
    {pid : Int} {i : ProcessInfo} (h : alookup l pid = some i) (hs : pid ∈ seen) :
    alookup (l.filter (fun kv => decide (kv.1 ∈ seen))) pid = some i := by
  induction l with
  | nil => simp [alookup] at h
  | cons kv rest ih =>
    obtain ⟨k, v⟩ := kv
    simp only [alookup] at h
    by_cases hk : k = pid
    · subst hk
      rw [if_pos rfl] at h
      have hd : (fun kv : Int × ProcessInfo => decide (kv.1 ∈ seen)) (k, v) = true := by
        simp [hs]
      rw [List.filter_cons, if_pos hd]
      simp only [alookup, if_pos rfl]
      exact h
    · rw [if_neg hk] at h
      rw [List.filter_cons]
      split
      · simp only [alookup, hk, if_false]
        exact ih h
      · exact ih h

theorem alookup_filter_none {l : List (Int × ProcessInfo)}
    {f : Int × ProcessInfo → Bool} {pid : Int} (h : alookup l pid = none) :
    alookup (l.filter f) pid = none := by
  induction l with
  | nil => simp [alookup]
  | cons kv rest ih =>
    obtain ⟨k, v⟩ := kv
    simp only [alookup] at h
    by_cases hk : k = pid
    · simp [hk] at h
    · rw [if_neg hk] at h
      rw [List.filter_cons]
      split
      · simp only [alookup, hk, if_false]
        exact ih h
      · exact ih h

theorem alookup_map_reniced (l : List (Int × ProcessInfo)) (pid : Int) :
    alookup (l.map (fun kv => (kv.1, { kv.2 with Reniced := false }))) pid =
      (alookup l pid).map (fun i => { i with Reniced := false }) := by
  induction l with
  | nil => rfl
  | cons kv rest ih =>
    obtain ⟨k, v⟩ := kv
    by_cases hk : k = pid <;> simp [alookup, hk, ih]

theorem afterCache_seen (env : Env) (pm : PillManager) (niceOpt : Option Int)
    (st : LoopState) (pid : Int) (info : ProcessInfo) :
    (afterCache env pm niceOpt st pid info).seen = pid :: st.seen := by
  unfold afterCache
  rw [(reniceStep_parts env pm niceOpt
      (triggerStep pm { st with seen := pid :: st.seen } pid info) pid info).1,
    (triggerStep_parts pm { st with seen := pid :: st.seen } pid info).2.1]

theorem scanStep_seen_sub (env : Env) (pm : PillManager) (niceOpt : Option Int)
    (st : LoopState) (pid : Int) {q : Int}
    (h : q ∈ (scanStep env pm niceOpt st pid).seen) : q = pid ∨ q ∈ st.seen := by
  rcases scanStep_split env pm niceOpt st pid with ⟨heq, _, _⟩ | ⟨info, _, heq⟩ |
    ⟨info, _, _, _, heq⟩ <;> rw [heq] at h
  · exact Or.inr h
  · rw [afterCache_seen] at h
    exact List.mem_cons.mp h
  · rw [afterCache_seen] at h
    exact List.mem_cons.mp h

theorem scanStep_seen_mono (env : Env) (pm : PillManager) (niceOpt : Option Int)
    (st : LoopState) (pid : Int) {q : Int} (h : q ∈ st.seen) :
    q ∈ (scanStep env pm niceOpt st pid).seen := by
  rcases scanStep_split env pm niceOpt st pid with ⟨heq, _, _⟩ | ⟨info, _, heq⟩ |
    ⟨info, _, _, _, heq⟩ <;> rw [heq]
  · exact h
  · rw [afterCache_seen]
    exact List.mem_cons_of_mem _ h
  · rw [afterCache_seen]
    exact List.mem_cons_of_mem _ h

theorem scanStep_seen_self (env : Env) (pm : PillManager) (niceOpt : Option Int)
    (st : LoopState) (pid : Int)
    (h : (alookup st.known pid).isSome = true ∨ env.username pid = some pm.userName) :
    pid ∈ (scanStep env pm niceOpt st pid).seen := by
  rcases scanStep_split env pm niceOpt st pid with ⟨heq, hnone, hfor⟩ | ⟨info, _, heq⟩ |
    ⟨info, _, _, _, heq⟩
  · rcases h with h | h
    · rw [hnone] at h
      simp at h
    · exact absurd h hfor
  · rw [heq, afterCache_seen]
    exact List.mem_cons_self _ _
  · rw [heq, afterCache_seen]
    exact List.mem_cons_self _ _

theorem scanLoop_seen_sub (env : Env) (pm : PillManager) (niceOpt : Option Int)
    (l : List Int) (st : LoopState) {q : Int}
    (h : q ∈ (scanLoop env pm niceOpt l st).seen) : q ∈ st.seen ∨ q ∈ l := by
  induction l generalizing st with
  | nil => exact Or.inl h
  | cons pid rest ih =>
    rcases ih (scanStep env pm niceOpt st pid) h with h1 | h1
    · rcases scanStep_seen_sub env pm niceOpt st pid h1 with h2 | h2
      · exact Or.inr (by simp [h2])
      · exact Or.inl h2
    · exact Or.inr (List.mem_cons_of_mem _ h1)

theorem afterCache_known (env : Env) (pm : PillManager) (niceOpt : Option Int)
    (st : LoopState) (pid : Int) (info : ProcessInfo) :
    (afterCache env pm niceOpt st pid info).known = st.known ∨
    ∃ i, alookup st.known pid = some i ∧
      (afterCache env pm niceOpt st pid info).known =
        aupdate st.known pid { i with Reniced := true } := by
  unfold afterCache
  have ht := (triggerStep_parts pm { st with seen := pid :: st.seen } pid info).1
  rcases reniceStep_known env pm niceOpt
      (triggerStep pm { st with seen := pid :: st.seen } pid info) pid info with
    h | ⟨i, hi, h⟩
  · exact Or.inl (by rw [h, ht])
  · rw [ht] at hi
    exact Or.inr ⟨i, hi, by rw [h, ht]⟩

/-- How one loop iteration can change a cache binding: not at all, only its
`Reniced` flag, or the fresh-insert of the iterated, owned, uncached pid. -/
theorem scanStep_alookup (env : Env) (pm : PillManager) (niceOpt : Option Int)
    (st : LoopState) (pid q : Int) :
    alookup (scanStep env pm niceOpt st pid).known q = alookup st.known q ∨
    (∃ i, alookup st.known q = some i ∧
      alookup (scanStep env pm niceOpt st pid).known q =
        some { i with Reniced := true }) ∨
    (q = pid ∧ alookup st.known q = none ∧
      env.username pid = some pm.userName ∧
      ∃ b, alookup (scanStep env pm niceOpt st pid).known q =
        some ⟨(env.pname pid).getD "unknown", (env.cmdline pid).getD "",
          pm.userName, b⟩) := by
  rcases scanStep_split env pm niceOpt st pid with ⟨heq, _, _⟩ | ⟨info, hsome, heq⟩ |
    ⟨info, hnone, huser, hinfo, heq⟩
  · rw [heq]
    exact Or.inl rfl
  · rcases afterCache_known env pm niceOpt st pid info with h | ⟨i, hi, h⟩
    · rw [heq, h]
      exact Or.inl rfl
    · by_cases hq : q = pid
      · subst hq
        refine Or.inr (Or.inl ⟨i, hi, ?_⟩)
        rw [heq, h, alookup_aupdate, if_pos rfl, hi]
        rfl
      · refine Or.inl ?_
        rw [heq, h, alookup_aupdate, if_neg hq]
  · have hlp : alookup (st.known ++ [(pid, info)]) pid = some info := by
      rw [alookup_append_of_none hnone]
      simp [alookup]
    rcases afterCache_known env pm niceOpt
        { st with known := st.known ++ [(pid, info)] } pid info with h | ⟨i, hi, h⟩
    · by_cases hq : q = pid
      · subst hq
        refine Or.inr (Or.inr ⟨rfl, hnone, huser, false, ?_⟩)
        rw [heq, h]
        rw [show ({ st with known := st.known ++ [(q, info)] } : LoopState).known =
          st.known ++ [(q, info)] from rfl, hlp, hinfo]
      · refine Or.inl ?_
        rw [heq, h]
        exact alookup_append_ne pid q info (fun hc => hq hc.symm)
    · have hii : i = info := by
        rw [show ({ st with known := st.known ++ [(pid, info)] } : LoopState).known =
          st.known ++ [(pid, info)] from rfl] at hi
        rw [hlp] at hi
        injection hi with h2
        exact h2.symm
      subst hii
      by_cases hq : q = pid
      · subst hq
        refine Or.inr (Or.inr ⟨rfl, hnone, huser, true, ?_⟩)
        rw [heq, h, alookup_aupdate, if_pos rfl]
        rw [show ({ st with known := st.known ++ [(q, i)] } : LoopState).known =
          st.known ++ [(q, i)] from rfl, hlp, hinfo]
        rfl
      · refine Or.inl ?_
        rw [heq, h, alookup_aupdate, if_neg hq]
        exact alookup_append_ne pid q i (fun hc => hq hc.symm)

theorem scanStep_cmdView (env : Env) (pm : PillManager) (niceOpt : Option Int)
    (st : LoopState) (pid q : Int) :
    cmdView env (scanStep env pm niceOpt st pid).known q = cmdView env st.known q := by
  rcases scanStep_alookup env pm niceOpt st pid q with h | ⟨i, hi, h⟩ |
    ⟨hq, hnone, _, b, h⟩
  · unfold cmdView
    rw [h]
  · unfold cmdView
    rw [h, hi]
  · subst hq
    unfold cmdView
    rw [h, hnone]

theorem scanStep_isSome_mono (env : Env) (pm : PillManager) (niceOpt : Option Int)
    (st : LoopState) (pid q : Int) (h : (alookup st.known q).isSome = true) :
    (alookup (scanStep env pm niceOpt st pid).known q).isSome = true := by
  rcases scanStep_alookup env pm niceOpt st pid q with h1 | ⟨i, hi, h1⟩ |
    ⟨hq, hnone, _, b, h1⟩
  · rw [h1]
    exact h
  · rw [h1]
    rfl
  · rw [hnone] at h
    simp at h

theorem scanStep_fields (env : Env) (pm : PillManager) (niceOpt : Option Int)
    (st : LoopState) (pid q : Int) (i : ProcessInfo)
    (h : alookup st.known q = some i) :
    ∃ i2, alookup (scanStep env pm niceOpt st pid).known q = some i2 ∧
      i2.Cmdline = i.Cmdline ∧ i2.Username = i.Username := by
  rcases scanStep_alookup env pm niceOpt st pid q with h1 | ⟨j, hj, h1⟩ |
    ⟨hq, hnone, _, b, h1⟩
  · exact ⟨i, by rw [h1, h], rfl, rfl⟩
  · rw [h] at hj
    injection hj with hj2
    subst hj2
    exact ⟨{ i with Reniced := true }, by rw [h1], rfl, rfl⟩
  · rw [hnone] at h
    simp at h

theorem scanStep_none_foreign (env : Env) (pm : PillManager) (niceOpt : Option Int)
    (st : LoopState) (pid q : Int) (h : alookup st.known q = none)
    (hf : env.username q ≠ some pm.userName) :
    alookup (scanStep env pm niceOpt st pid).known q = none := by
  rcases scanStep_alookup env pm niceOpt st pid q with h1 | ⟨i, hi, h1⟩ |
    ⟨hq, hnone, huser, b, h1⟩
  · rw [h1, h]
  · rw [h] at hi
    simp at hi
  · subst hq
    exact absurd huser hf

theorem scanLoop_cmdView (env : Env) (pm : PillManager) (niceOpt : Option Int)
    (l : List Int) (st : LoopState) (q : Int) :
    cmdView env (scanLoop env pm niceOpt l st).known q = cmdView env st.known q := by
  induction l generalizing st with
  | nil => rfl
  | cons pid rest ih =>
    rw [scanLoop, ih, scanStep_cmdView]

theorem scanLoop_isSome_mono (env : Env) (pm : PillManager) (niceOpt : Option Int)
    (l : List Int) (st : LoopState) (q : Int)
    (h : (alookup st.known q).isSome = true) :
    (alookup (scanLoop env pm niceOpt l st).known q).isSome = true := by
  induction l generalizing st with
  | nil => exact h
  | cons pid rest ih =>
    exact ih (scanStep env pm niceOpt st pid) (scanStep_isSome_mono env pm niceOpt st pid q h)

theorem scanLoop_none_foreign (env : Env) (pm : PillManager) (niceOpt : Option Int)
    (l : List Int) (st : LoopState) (q : Int) (h : alookup st.known q = none)
    (hf : env.username q ≠ some pm.userName) :
    alookup (scanLoop env pm niceOpt l st).known q = none := by
  induction l generalizing st with
  | nil => exact h
  | cons pid rest ih =>
    exact ih (scanStep env pm niceOpt st pid)
      (scanStep_none_foreign env pm niceOpt st pid q h hf)

/-! ### Trigger-bookkeeping lemmas -/

theorem triggerStep_of_keep (pm : PillManager) (st : LoopState) (pid : Int)
    (info : ProcessInfo) (h : st.shouldKeep = true) :
    triggerStep pm st pid info = st := by
  simp [triggerStep, h]

theorem triggerStep_of_nomatch (pm : PillManager) (st : LoopState) (pid : Int)
    (info : ProcessInfo) (hm : checkTriggerMatch pm.Triggers info.Cmdline = "") :
    triggerStep pm st pid info = st := by
  simp [triggerStep, hm]

theorem triggerStep_of_cur (pm : PillManager) (st : LoopState) (pid : Int)
    (info : ProcessInfo) (h : st.shouldKeep = false)
    (hm : checkTriggerMatch pm.Triggers info.Cmdline = pm.CurrentPill)
    (hne : pm.CurrentPill ≠ "") :
    triggerStep pm st pid info =
      { st with shouldKeep := true, triggerProc := some pid } := by
  simp [triggerStep, h, hm, hne]

theorem triggerStep_of_new (pm : PillManager) (st : LoopState) (pid : Int)
    (info : ProcessInfo) (P : String) (h : st.shouldKeep = false)
    (hm : checkTriggerMatch pm.Triggers info.Cmdline = P) (hne : P ≠ "")
    (hcur : P ≠ pm.CurrentPill) (hex : (alookup pm.Pillz P).isSome = true) :
    triggerStep pm st pid info =
      { st with newPill := P, triggerProc := some pid } := by
  simp [triggerStep, h, hm, hne, hcur, hex]

theorem triggerStep_of_unknown (pm : PillManager) (st : LoopState) (pid : Int)
    (info : ProcessInfo) (h : st.shouldKeep = false)
    (hcur : checkTriggerMatch pm.Triggers info.Cmdline ≠ pm.CurrentPill)
    (hex : (alookup pm.Pillz
      (checkTriggerMatch pm.Triggers info.Cmdline)).isSome = false) :
    triggerStep pm st pid info = st := by
  by_cases hm : checkTriggerMatch pm.Triggers info.Cmdline = ""
  · exact triggerStep_of_nomatch pm st pid info hm
  · simp [triggerStep, h, hm, hcur, hex]

theorem afterCache_fields (env : Env) (pm : PillManager) (niceOpt : Option Int)
    (st : LoopState) (pid : Int) (info : ProcessInfo) :
    (afterCache env pm niceOpt st pid info).shouldKeep =
      (triggerStep pm { st with seen := pid :: st.seen } pid info).shouldKeep ∧
    (afterCache env pm niceOpt st pid info).newPill =
      (triggerStep pm { st with seen := pid :: st.seen } pid info).newPill ∧
    (afterCache env pm niceOpt st pid info).triggerProc =
      (triggerStep pm { st with seen := pid :: st.seen } pid info).triggerProc := by
  unfold afterCache
  have h := reniceStep_parts env pm niceOpt
    (triggerStep pm { st with seen := pid :: st.seen } pid info) pid info
  exact ⟨h.2.1, h.2.2.1, h.2.2.2⟩

/-- Trigger bookkeeping of one loop iteration, phrased through the command
line the loop attributes to the iterated pid (`cmdView`): either the three
trigger locals are untouched, or a match for the current pill sets
`shouldKeepCurrentPill`, or a match for a different catalogued pill records
the pill to switch to. -/
theorem scanStep_trigger (env : Env) (pm : PillManager) (niceOpt : Option Int)
    (st : LoopState) (pid : Int) :
    (((alookup st.known pid = none ∧ env.username pid ≠ some pm.userName) ∨
      st.shouldKeep = true ∨
      checkTriggerMatch pm.Triggers (cmdView env st.known pid) = "" ∨
      (checkTriggerMatch pm.Triggers (cmdView env st.known pid) ≠ pm.CurrentPill ∧
       (alookup pm.Pillz
         (checkTriggerMatch pm.Triggers (cmdView env st.known pid))).isSome = false)) ∧
     (scanStep env pm niceOpt st pid).shouldKeep = st.shouldKeep ∧
     (scanStep env pm niceOpt st pid).newPill = st.newPill ∧
     (scanStep env pm niceOpt st pid).triggerProc = st.triggerProc) ∨
    (st.shouldKeep = false ∧
     checkTriggerMatch pm.Triggers (cmdView env st.known pid) = pm.CurrentPill ∧
     pm.CurrentPill ≠ "" ∧
     (scanStep env pm niceOpt st pid).shouldKeep = true ∧
     (scanStep env pm niceOpt st pid).newPill = st.newPill ∧
     (scanStep env pm niceOpt st pid).triggerProc = some pid) ∨
    (st.shouldKeep = false ∧
     checkTriggerMatch pm.Triggers (cmdView env st.known pid) ≠ "" ∧
     checkTriggerMatch pm.Triggers (cmdView env st.known pid) ≠ pm.CurrentPill ∧
     (alookup pm.Pillz
       (checkTriggerMatch pm.Triggers (cmdView env st.known pid))).isSome = true ∧
     (scanStep env pm niceOpt st pid).shouldKeep = false ∧
     (scanStep env pm niceOpt st pid).newPill =
       checkTriggerMatch pm.Triggers (cmdView env st.known pid) ∧
     (scanStep env pm niceOpt st pid).triggerProc = some pid) := by
  rcases scanStep_split env pm niceOpt st pid with ⟨heq, hn0, hf0⟩ | ⟨info, hsome, heq⟩ |
    ⟨info, hnone, huser, hinfo, heq⟩
  · rw [heq]
    exact Or.inl ⟨Or.inl ⟨hn0, hf0⟩, rfl, rfl, rfl⟩
  · have hc : cmdView env st.known pid = info.Cmdline := by
      unfold cmdView
      rw [hsome]
    rw [heq, hc]
    obtain ⟨hf1, hf2, hf3⟩ := afterCache_fields env pm niceOpt st pid info
    by_cases hk : st.shouldKeep = true
    · rw [triggerStep_of_keep pm { st with seen := pid :: st.seen } pid info hk] at hf1 hf2 hf3
      exact Or.inl ⟨Or.inr (Or.inl hk), by rw [hf1], by rw [hf2], by rw [hf3]⟩
    · have hk2 : st.shouldKeep = false := by
        cases h2 : st.shouldKeep
        · rfl
        · exact absurd h2 hk
      by_cases hm0 : checkTriggerMatch pm.Triggers info.Cmdline = ""
      · rw [triggerStep_of_nomatch pm { st with seen := pid :: st.seen } pid info hm0] at hf1 hf2 hf3
        exact Or.inl ⟨Or.inr (Or.inr (Or.inl hm0)),
          by rw [hf1], by rw [hf2], by rw [hf3]⟩
      · by_cases hmc : checkTriggerMatch pm.Triggers info.Cmdline = pm.CurrentPill
        · have hne : pm.CurrentPill ≠ "" := by
            rw [← hmc]
            exact hm0
          rw [triggerStep_of_cur pm { st with seen := pid :: st.seen } pid info hk2 hmc hne] at hf1 hf2 hf3
          exact Or.inr (Or.inl ⟨hk2, hmc, hne, by rw [hf1], by rw [hf2], by rw [hf3]⟩)
        · by_cases hex : (alookup pm.Pillz
              (checkTriggerMatch pm.Triggers info.Cmdline)).isSome = true
          · rw [triggerStep_of_new pm { st with seen := pid :: st.seen } pid info _ hk2 rfl hm0 hmc hex] at hf1 hf2 hf3
            exact Or.inr (Or.inr ⟨hk2, hm0, hmc, hex,
              by rw [hf1]; exact hk2, by rw [hf2], by rw [hf3]⟩)
          · have hex2 : (alookup pm.Pillz
                (checkTriggerMatch pm.Triggers info.Cmdline)).isSome = false := by
              cases h2 : (alookup pm.Pillz
                  (checkTriggerMatch pm.Triggers info.Cmdline)).isSome
              · rfl
              · exact absurd h2 hex
            rw [triggerStep_of_unknown pm { st with seen := pid :: st.seen } pid info hk2 hmc hex2] at hf1 hf2 hf3
            exact Or.inl ⟨Or.inr (Or.inr (Or.inr ⟨hmc, hex2⟩)),
              by rw [hf1], by rw [hf2], by rw [hf3]⟩
  · have hc : cmdView env st.known pid = info.Cmdline := by
      unfold cmdView
      rw [hnone, hinfo]
    rw [heq, hc]
    obtain ⟨hf1, hf2, hf3⟩ := afterCache_fields env pm niceOpt
      { st with known := st.known ++ [(pid, info)] } pid info
    by_cases hk : st.shouldKeep = true
    · rw [triggerStep_of_keep pm { st with known := st.known ++ [(pid, info)], seen := pid :: st.seen } pid info hk] at hf1 hf2 hf3
      exact Or.inl ⟨Or.inr (Or.inl hk), by rw [hf1], by rw [hf2], by rw [hf3]⟩
    · have hk2 : st.shouldKeep = false := by
        cases h2 : st.shouldKeep
        · rfl
        · exact absurd h2 hk
      by_cases hm0 : checkTriggerMatch pm.Triggers info.Cmdline = ""
      · rw [triggerStep_of_nomatch pm { st with known := st.known ++ [(pid, info)], seen := pid :: st.seen } pid info hm0] at hf1 hf2 hf3
        exact Or.inl ⟨Or.inr (Or.inr (Or.inl hm0)),
          by rw [hf1], by rw [hf2], by rw [hf3]⟩
      · by_cases hmc : checkTriggerMatch pm.Triggers info.Cmdline = pm.CurrentPill
        · have hne : pm.CurrentPill ≠ "" := by
            rw [← hmc]
            exact hm0
          rw [triggerStep_of_cur pm { st with known := st.known ++ [(pid, info)], seen := pid :: st.seen } pid info hk2 hmc hne] at hf1 hf2 hf3
          exact Or.inr (Or.inl ⟨hk2, hmc, hne, by rw [hf1], by rw [hf2], by rw [hf3]⟩)
        · by_cases hex : (alookup pm.Pillz
              (checkTriggerMatch pm.Triggers info.Cmdline)).isSome = true
          · rw [triggerStep_of_new pm { st with known := st.known ++ [(pid, info)], seen := pid :: st.seen } pid info _ hk2 rfl hm0 hmc hex] at hf1 hf2 hf3
            exact Or.inr (Or.inr ⟨hk2, hm0, hmc, hex,
              by rw [hf1]; exact hk2, by rw [hf2], by rw [hf3]⟩)
          · have hex2 : (alookup pm.Pillz
                (checkTriggerMatch pm.Triggers info.Cmdline)).isSome = false := by
              cases h2 : (alookup pm.Pillz
                  (checkTriggerMatch pm.Triggers info.Cmdline)).isSome
              · rfl
              · exact absurd h2 hex
            rw [triggerStep_of_unknown pm { st with known := st.known ++ [(pid, info)], seen := pid :: st.seen } pid info hk2 hmc hex2] at hf1 hf2 hf3
            exact Or.inl ⟨Or.inr (Or.inr (Or.inr ⟨hmc, hex2⟩)),
              by rw [hf1], by rw [hf2], by rw [hf3]⟩

/-! ### Claim C7: the cache is pruned to the pids of the last scan -/

theorem scanProcesses_some (env : Env) (pm : PillManager) (ps : List Int)
    (hps : env.procs = some ps) :
    scanProcesses env pm =
      scanDecision env
        { pm with knownProcs :=
            pruneKnown (scanLoop env pm (effectiveNice pm) ps (initLoopState pm ps)) }
        (scanLoop env pm (effectiveNice pm) ps (initLoopState pm ps)) := by
  unfold scanProcesses
  rw [hps]

theorem scanDecision_knownMem (env : Env) (pm2 : PillManager) (st : LoopState)
    {pid : Int} {info : ProcessInfo}
    (h : (pid, info) ∈ (scanDecision env pm2 st).pm.knownProcs) :
    ∃ i2, (pid, i2) ∈ pm2.knownProcs := by
  simp only [scanDecision] at h
  split at h
  · rcases eatPill_known env pm2 env.connectResults none "default" with hk | hk
    · rw [hk] at h
      obtain ⟨kv, hkv, hmap⟩ := List.mem_map.mp h
      have hfst : kv.1 = pid := congrArg Prod.fst hmap
      refine ⟨kv.2, ?_⟩
      rw [← hfst]
      simpa using hkv
    · rw [hk] at h
      exact ⟨info, h⟩
  · split at h
    · rcases eatPill_known env pm2 env.connectResults st.triggerProc st.newPill with
        hk | hk
      · rw [hk] at h
        obtain ⟨kv, hkv, hmap⟩ := List.mem_map.mp h
        have hfst : kv.1 = pid := congrArg Prod.fst hmap
        refine ⟨kv.2, ?_⟩
        rw [← hfst]
        simpa using hkv
      · rw [hk] at h
        exact ⟨info, h⟩
    · split at h
      · split at h
        · exact ⟨info, h⟩
        · exact ⟨info, h⟩
      · exact ⟨info, h⟩

/-- C7: after a completed `scanProcesses` pass over pid list `ps`, the
cache holds records only for pids of `ps`: every record whose pid was
absent from the scan has been deleted. -/
theorem C7_cache_only_scanned_pids (env : Env) (pm : PillManager) (ps : List Int)
    (hps : env.procs = some ps) :
    ∀ pid info, (pid, info) ∈ (scanProcesses env pm).pm.knownProcs → pid ∈ ps := by
  intro pid info h
  rw [scanProcesses_some env pm ps hps] at h
  obtain ⟨i2, hi2⟩ := scanDecision_knownMem env _ _ h
  have hmem := List.mem_filter.mp hi2
  have hseen : pid ∈ (scanLoop env pm (effectiveNice pm) ps (initLoopState pm ps)).seen :=
    of_decide_eq_true hmem.2
  rcases scanLoop_seen_sub env pm (effectiveNice pm) ps (initLoopState pm ps) hseen with
    h1 | h1
  · simp [initLoopState] at h1
  · exact h1

/-! ### Claim C8: ownership scanning and the cache -/

theorem scanDecision_alookup (env : Env) (pm2 : PillManager) (st : LoopState)
    (pid : Int) :
    (alookup (scanDecision env pm2 st).pm.knownProcs pid).map
        (fun i => (i.Cmdline, i.Username)) =
      (alookup pm2.knownProcs pid).map (fun i => (i.Cmdline, i.Username)) := by
  simp only [scanDecision]
  split
  · rcases eatPill_known env pm2 env.connectResults none "default" with hk | hk
    · rw [hk, alookup_map_reniced]
      cases alookup pm2.knownProcs pid <;> rfl
    · rw [hk]
  · split
    · rcases eatPill_known env pm2 env.connectResults st.triggerProc st.newPill with
        hk | hk
      · rw [hk, alookup_map_reniced]
        cases alookup pm2.knownProcs pid <;> rfl
      · rw [hk]
    · split
      · split
        · rfl
        · rfl
      · rfl

/-- Invariant for C8: the record the scanner created for `pid` survives the
rest of the loop with its resolved command line and user name. -/
def cachedOwned (env : Env) (pm : PillManager) (pid : Int) (st : LoopState) : Prop :=
  ∃ i, alookup st.known pid = some i ∧
    i.Cmdline = (env.cmdline pid).getD "" ∧
    i.Username = pm.userName ∧ pid ∈ st.seen

theorem cachedOwned_step (env : Env) (pm : PillManager) (niceOpt : Option Int)
    (pid q : Int) (st : LoopState) (h : cachedOwned env pm pid st) :
    cachedOwned env pm pid (scanStep env pm niceOpt st q) := by
  obtain ⟨i, hi, hc, hu, hs⟩ := h
  obtain ⟨i2, hi2, hc2, hu2⟩ := scanStep_fields env pm niceOpt st q pid i hi
  exact ⟨i2, hi2, hc2.trans hc, hu2.trans hu, scanStep_seen_mono env pm niceOpt st q hs⟩

theorem cachedOwned_establish (env : Env) (pm : PillManager) (niceOpt : Option Int)
    (pid : Int) (st : LoopState) (hnone : alookup st.known pid = none)
    (huser : env.username pid = some pm.userName) :
    cachedOwned env pm pid (scanStep env pm niceOpt st pid) := by
  rcases scanStep_split env pm niceOpt st pid with ⟨heq, _, hfor⟩ | ⟨i, hi, heq⟩ |
    ⟨i, hn, hu, hinfo, heq⟩
  · exact absurd huser hfor
  · rw [hnone] at hi
    simp at hi
  · have hlp : alookup (st.known ++ [(pid, i)]) pid = some i := by
      rw [alookup_append_of_none hn]
      simp [alookup]
    rw [heq]
    rcases afterCache_known env pm niceOpt
        { st with known := st.known ++ [(pid, i)] } pid i with h2 | ⟨j, hj, h2⟩
    · refine ⟨i, ?_, by rw [hinfo], by rw [hinfo], ?_⟩
      · rw [h2]
        exact hlp
      · rw [afterCache_seen]
        exact List.mem_cons_self _ _
    · have hji : j = i := by
        have : alookup (st.known ++ [(pid, i)]) pid = some j := hj
        rw [hlp] at this
        injection this with h3
        exact h3.symm
      subst hji
      refine ⟨{ j with Reniced := true }, ?_, by rw [hinfo], by rw [hinfo], ?_⟩
      · rw [h2, alookup_aupdate, if_pos rfl]
        have : alookup ({ st with known := st.known ++ [(pid, j)] } : LoopState).known pid =
            some j := hlp
        rw [this]
        rfl
      · rw [afterCache_seen]
        exact List.mem_cons_self _ _

theorem cachedOwned_loop (env : Env) (pm : PillManager) (niceOpt : Option Int)
    (pid : Int) (huser : env.username pid = some pm.userName) (l : List Int)
    (st : LoopState)
    (h : (pid ∈ l ∧ (alookup st.known pid = none ∨ cachedOwned env pm pid st)) ∨
      cachedOwned env pm pid st) :
    cachedOwned env pm pid (scanLoop env pm niceOpt l st) := by
  induction l generalizing st with
  | nil =>
    rcases h with ⟨hmem, _⟩ | hΨ
    · simp at hmem
    · exact hΨ
  | cons q rest ih =>
    rcases h with ⟨hmem, hst⟩ | hΨ
    · by_cases hpq : pid = q
      · subst hpq
        rcases hst with hnone | hΨ
        · exact ih (scanStep env pm niceOpt st pid)
            (Or.inr (cachedOwned_establish env pm niceOpt pid st hnone huser))
        · exact ih (scanStep env pm niceOpt st pid)
            (Or.inr (cachedOwned_step env pm niceOpt pid pid st hΨ))
      · have hrest : pid ∈ rest := by
          rcases List.mem_cons.mp hmem with h1 | h1
          · exact absurd h1 hpq
          · exact h1
        rcases hst with hnone | hΨ
        · refine ih (scanStep env pm niceOpt st q) (Or.inl ⟨hrest, ?_⟩)
          rcases scanStep_alookup env pm niceOpt st q pid with h1 | ⟨i, hi, h1⟩ |
            ⟨hqq, _, _, _, _⟩
          · exact Or.inl (by rw [h1, hnone])
          · rw [hnone] at hi
            simp at hi
          · exact absurd hqq hpq
        · exact ih (scanStep env pm niceOpt st q)
            (Or.inr (cachedOwned_step env pm niceOpt pid q st hΨ))
    · exact ih (scanStep env pm niceOpt st q)
        (Or.inr (cachedOwned_step env pm niceOpt pid q st hΨ))

/-- C8 counterexample: pid 80 is enumerated but owned by root; after the
scan it has no cache record (while owned pid 70 does), refuting "stores a
cache record for it (owned and non-owned alike)". -/
theorem C8_counterexample :
    alookup (scanProcesses envOwnership pmOwnership).pm.knownProcs 80 = none ∧
    (alookup (scanProcesses envOwnership pmOwnership).pm.knownProcs 70).isSome = true ∧
    envOwnership.username 80 = some "root" := by
  refine ⟨by decide, by decide, rfl⟩

/-- C8 (amended): a fresh, user-owned pid is resolved once and cached with
its command line and owner, and the record survives the pass; a process
whose user does not resolve to the daemon user is never cached — it is
skipped again (by re-resolving its user) on every cycle rather than via a
cached owner check. -/
theorem C8_owned_cached_foreign_not (env : Env) (pm : PillManager) (ps : List Int)
    (pid : Int) (hps : env.procs = some ps) (hmem : pid ∈ ps)
    (hnew : alookup pm.knownProcs pid = none)
    (huser : env.username pid = some pm.userName) :
    ((alookup (scanProcesses env pm).pm.knownProcs pid).map
        (fun i => (i.Cmdline, i.Username)) =
      some ((env.cmdline pid).getD "", pm.userName)) ∧
    (∀ q, alookup pm.knownProcs q = none → env.username q ≠ some pm.userName →
      alookup (scanProcesses env pm).pm.knownProcs q = none) := by
  have hscan := scanProcesses_some env pm ps hps
  set st := scanLoop env pm (effectiveNice pm) ps (initLoopState pm ps) with hst
  constructor
  · rw [hscan, scanDecision_alookup]
    obtain ⟨i, hi, hc, hu, hs⟩ :=
      cachedOwned_loop env pm (effectiveNice pm) pid huser ps (initLoopState pm ps)
        (Or.inl ⟨hmem, Or.inl hnew⟩)
    have hken : alookup ({ pm with knownProcs := pruneKnown st } : PillManager).knownProcs
        pid = some i := alookup_filter_of_mem hi hs
    rw [hken]
    simp [hc, hu]
  · intro q hq hfq
    have hloop : alookup st.known q = none :=
      scanLoop_none_foreign env pm (effectiveNice pm) ps (initLoopState pm ps) q hq hfq
    have hprune : alookup ({ pm with knownProcs := pruneKnown st } : PillManager).knownProcs
        q = none := alookup_filter_none hloop
    have hmap := scanDecision_alookup env { pm with knownProcs := pruneKnown st } st q
    rw [hprune] at hmap
    rw [hscan]
    exact Option.map_eq_none.mp hmap

/-! ### Claim C6: reverting to default exactly once -/

theorem scanLoop_keep_false (env : Env) (pm : PillManager) (niceOpt : Option Int)
    (l : List Int) (st : LoopState) (hsk : st.shouldKeep = false)
    (hinv : ∀ q, cmdView env st.known q = cmdView env pm.knownProcs q)
    (hnomatch : ∀ q ∈ l,
      checkTriggerMatch pm.Triggers (cmdView env pm.knownProcs q) ≠ pm.CurrentPill) :
    (scanLoop env pm niceOpt l st).shouldKeep = false := by
  induction l generalizing st with
  | nil => exact hsk
  | cons q rest ih =>
    refine ih (scanStep env pm niceOpt st q) ?_ ?_ ?_
    · rcases scanStep_trigger env pm niceOpt st q with ⟨_, h1, _, _⟩ |
        ⟨_, hm, _, _, _, _⟩ | ⟨_, _, _, _, h1, _, _⟩
      · rw [h1]
        exact hsk
      · rw [hinv q] at hm
        exact absurd hm (hnomatch q (List.mem_cons_self _ _))
      · exact h1
    · intro q2
      rw [scanStep_cmdView, hinv]
    · intro q2 hq2
      exact hnomatch q2 (List.mem_cons_of_mem _ hq2)

theorem scanDecision_revert (env : Env) (pm2 : PillManager) (st : LoopState)
    (h1 : st.shouldKeep = false) (h2 : pm2.CurrentPill ≠ "default")
    (hl : env.bus.tunedListOk = true) :
    (scanDecision env pm2 st).pm.CurrentPill = "default" ∧
    (scanDecision env pm2 st).pm.currentProc = 0 ∧
    (scanDecision env pm2 st).pm.currentParent = 0 ∧
    (scanDecision env pm2 st).trace =
      st.trace ++ (eatPill env pm2 env.connectResults none "default").trace := by
  simp only [scanDecision]
  rw [if_pos ⟨h1, h2⟩]
  have hnp := eatPill_not_panicked env pm2 env.connectResults none "default" hl
  have he := eatPill_pm env pm2 env.connectResults none "default" hnp
  exact ⟨he.1, (he.2.2.1 rfl).1, (he.2.2.1 rfl).2, rfl⟩

theorem scanDecision_switch (env : Env) (pm2 : PillManager) (st : LoopState) (q : Int)
    (hcond1 : ¬(st.shouldKeep = false ∧ pm2.CurrentPill ≠ "default"))
    (hcond2 : st.newPill ≠ "" ∧ st.newPill ≠ pm2.CurrentPill)
    (htp : st.triggerProc = some q)
    (hl : env.bus.tunedListOk = true) :
    (scanDecision env pm2 st).pm.CurrentPill = st.newPill ∧
    (scanDecision env pm2 st).pm.currentProc = q ∧
    Ev.eat (some q) st.newPill ∈ (scanDecision env pm2 st).trace := by
  simp only [scanDecision]
  rw [if_neg hcond1, if_pos hcond2, htp]
  have hnp := eatPill_not_panicked env pm2 env.connectResults (some q) st.newPill hl
  have he := eatPill_pm env pm2 env.connectResults (some q) st.newPill hnp
  refine ⟨he.1, he.2.2.2 q rfl, ?_⟩
  obtain ⟨tl, htl, _⟩ := eatPill_trace env pm2 env.connectResults (some q) st.newPill
  rw [htl]
  exact List.mem_append.mpr (Or.inr (List.mem_cons_self _ _))

theorem countP_eat_zero_of_setpriority (tr : List Ev)
    (h : ∀ e ∈ tr, isSetpriorityEv e = true) : tr.countP isEatEv = 0 := by
  refine List.countP_eq_zero.mpr ?_
  intro e he
  have := h e he
  cases e <;> simp_all [isSetpriorityEv, isEatEv]

theorem countP_eat_eatPill (env : Env) (pm : PillManager) (res : List (Option Nat))
    (p : Option Int) (pill : String) :
    (eatPill env pm res p pill).trace.countP isEatEv = 1 := by
  obtain ⟨tl, htl, hbus⟩ := eatPill_trace env pm res p pill
  rw [htl, List.countP_cons]
  have h0 : tl.countP isEatEv = 0 := by
    refine List.countP_eq_zero.mpr ?_
    intro e he
    have := hbus e he
    cases e <;> simp_all [isBusEv, isEatEv]
  simp [h0, isEatEv]

/-- The scan-loop trace of a full pass, starting from the empty trace. -/
theorem scanLoop_trace_init (env : Env) (pm : PillManager) (ps : List Int) :
    ∃ tl, (scanLoop env pm (effectiveNice pm) ps (initLoopState pm ps)).trace = tl ∧
      ∀ e ∈ tl, isSetpriorityEv e = true := by
  obtain ⟨tl, htl, hsp⟩ :=
    scanLoop_trace env pm (effectiveNice pm) ps (initLoopState pm ps)
  refine ⟨tl, ?_, hsp⟩
  rw [htl]
  rfl

/-- Helper for C6: while the current pill is already "default", no
`eatPill(_, "default")` call is ever issued by a scan. -/
theorem no_eat_default (env2 : Env) (pm2 : PillManager)
    (hdef : pm2.CurrentPill = "default") (p : Option Int) :
    Ev.eat p "default" ∉ (scanProcesses env2 pm2).trace := by
  intro h
  cases hp : env2.procs with
  | none =>
    unfold scanProcesses at h
    rw [hp] at h
    simp at h
  | some ps2 =>
    rw [scanProcesses_some env2 pm2 ps2 hp] at h
    rcases scanDecision_trace env2 _ _ h with h1 | h1 | h1 | h1
    · obtain ⟨tl, htl, hsp⟩ := scanLoop_trace_init env2 pm2 ps2
      rw [htl] at h1
      have := hsp _ h1
      simp [isSetpriorityEv] at this
    · simp [isBusEv] at h1
    · exact h1.2.1 hdef
    · injection h1.2.2 with hpp hpl
      exact h1.2.1 (hpl.symm.trans hdef.symm)

/-- C6 counterexample: the anchor pid 100 is absent from the scan and the
current pill is "game" (not "default"), yet no `eatPill(nil, "default")`
reversion happens, because pid 200 matches the trigger bound to the
current pill and is adopted as the new anchor instead. -/
theorem C6_counterexample :
    (scanProcesses envRematch pmRematch).trace = [] ∧
    (scanProcesses envRematch pmRematch).pm.CurrentPill = "game" ∧
    (scanProcesses envRematch pmRematch).pm.currentProc = 200 := by
  refine ⟨by decide, by decide, by decide⟩

/-- C6 (amended): when the anchor pid is absent from the scan, the current
pill is not "default", no scanned process's command line matches a
trigger bound to the current pill, and the tuned capability-list call
succeeds (a failing one panics the daemon inside the reverting `eatPill`,
see C3, so no post-scan state exists), the scan reverts: it issues
exactly one `eatPill` call, namely `eatPill(nil, "default")`, which sets
the current pill to "default" and clears anchor and valid parent to 0;
and no scan that starts with current pill "default" ever issues an
`eatPill(_, "default")` again. -/
theorem C6_revert_exactly_once (env : Env) (pm : PillManager) (ps : List Int)
    (hps : env.procs = some ps) (hanchor : pm.currentProc ∉ ps)
    (hcur : pm.CurrentPill ≠ "default")
    (hbus : env.bus.tunedListOk = true)
    (hnomatch : ∀ q ∈ ps,
      checkTriggerMatch pm.Triggers (cmdView env pm.knownProcs q) ≠ pm.CurrentPill) :
    (scanProcesses env pm).pm.CurrentPill = "default" ∧
    (scanProcesses env pm).pm.currentProc = 0 ∧
    (scanProcesses env pm).pm.currentParent = 0 ∧
    (scanProcesses env pm).trace.countP isEatEv = 1 ∧
    Ev.eat none "default" ∈ (scanProcesses env pm).trace ∧
    (∀ (env2 : Env) (pm2 : PillManager) (p : Option Int),
      pm2.CurrentPill = "default" →
      Ev.eat p "default" ∉ (scanProcesses env2 pm2).trace) := by
  rw [scanProcesses_some env pm ps hps]
  set st := scanLoop env pm (effectiveNice pm) ps (initLoopState pm ps) with hst
  have hsk0 : (initLoopState pm ps).shouldKeep = false := by
    simp [initLoopState, hanchor]
  have hsk : st.shouldKeep = false := by
    rw [hst]
    exact scanLoop_keep_false env pm (effectiveNice pm) ps (initLoopState pm ps)
      hsk0 (fun q => rfl) hnomatch
  have hrev := scanDecision_revert env { pm with knownProcs := pruneKnown st } st
    hsk hcur hbus
  obtain ⟨tl, htl, hsp⟩ := scanLoop_trace_init env pm ps
  have htl2 : st.trace = tl := by
    rw [hst]
    exact htl
  refine ⟨hrev.1, hrev.2.1, hrev.2.2.1, ?_, ?_, ?_⟩
  · rw [hrev.2.2.2, List.countP_append, htl2,
      countP_eat_zero_of_setpriority tl hsp, countP_eat_eatPill]
  · rw [hrev.2.2.2]
    obtain ⟨tl2, htl3, _⟩ :=
      eatPill_trace env { pm with knownProcs := pruneKnown st } env.connectResults
        none "default"
    rw [htl3]
    exact List.mem_append.mpr (Or.inr (List.mem_cons_self _ _))
  · intro env2 pm2 p hdef
    exact no_eat_default env2 pm2 hdef p

/-! ### Claim C1: trigger match switches the profile -/

theorem scanLoop_c1 (env : Env) (pm : PillManager) (niceOpt : Option Int)
    (ps : List Int) (p0 : Int) (P : String)
    (hmatch : checkTriggerMatch pm.Triggers (cmdView env pm.knownProcs p0) = P)
    (hPne : P ≠ "") (hPcur : P ≠ pm.CurrentPill)
    (hPex : (alookup pm.Pillz P).isSome = true)
    (hothers : ∀ q ∈ ps, q ≠ p0 →
      checkTriggerMatch pm.Triggers (cmdView env pm.knownProcs q) = "") :
    ∀ (l : List Int) (st : LoopState), (∀ q ∈ l, q ∈ ps) →
      st.shouldKeep = false →
      (∀ q, cmdView env st.known q = cmdView env pm.knownProcs q) →
      ((alookup st.known p0).isSome = true ∨ env.username p0 = some pm.userName) →
      (p0 ∈ l ∨ (st.newPill = P ∧ st.triggerProc = some p0)) →
      (scanLoop env pm niceOpt l st).shouldKeep = false ∧
      (scanLoop env pm niceOpt l st).newPill = P ∧
      (scanLoop env pm niceOpt l st).triggerProc = some p0 := by
  intro l
  induction l with
  | nil =>
    intro st _ hsk hinv _ hlast
    rcases hlast with h | ⟨h1, h2⟩
    · simp at h
    · exact ⟨hsk, h1, h2⟩
  | cons q rest ih =>
    intro st hsub hsk hinv hreach hlast
    have hinv2 : ∀ q2, cmdView env (scanStep env pm niceOpt st q).known q2 =
        cmdView env pm.knownProcs q2 :=
      fun q2 => (scanStep_cmdView env pm niceOpt st q q2).trans (hinv q2)
    have hreach2 : (alookup (scanStep env pm niceOpt st q).known p0).isSome = true ∨
        env.username p0 = some pm.userName := by
      rcases hreach with hr | hr
      · exact Or.inl (scanStep_isSome_mono env pm niceOpt st q p0 hr)
      · exact Or.inr hr
    have hsub2 : ∀ q2 ∈ rest, q2 ∈ ps :=
      fun q2 h2 => hsub q2 (List.mem_cons_of_mem _ h2)
    by_cases hpq : q = p0
    · subst hpq
      rcases scanStep_trigger env pm niceOpt st q with ⟨hreason, _, _, _⟩ |
        ⟨_, hm, _, _, _, _⟩ | ⟨_, _, _, _, hk3, hn3, ht3⟩
      · rcases hreason with ⟨hn, hf⟩ | hkk | hm0 | ⟨_, hex⟩
        · rcases hreach with hr | hr
          · rw [hn] at hr
            simp at hr
          · exact absurd hr hf
        · rw [hsk] at hkk
          exact Bool.noConfusion hkk
        · rw [hinv q, hmatch] at hm0
          exact absurd hm0.symm (Ne.symm hPne)
        · rw [hinv q, hmatch, hPex] at hex
          exact Bool.noConfusion hex
      · rw [hinv q, hmatch] at hm
        exact absurd hm hPcur
      · rw [hinv q, hmatch] at hn3
        exact ih (scanStep env pm niceOpt st q) hsub2 hk3 hinv2 hreach2
          (Or.inr ⟨hn3, ht3⟩)
    · have hm0 : checkTriggerMatch pm.Triggers (cmdView env pm.knownProcs q) = "" :=
        hothers q (hsub q (List.mem_cons_self _ _)) hpq
      rcases scanStep_trigger env pm niceOpt st q with ⟨_, hf1, hf2, hf3⟩ |
        ⟨_, hm, hne, _, _, _⟩ | ⟨_, hne3, _, _, _, _, _⟩
      · refine ih (scanStep env pm niceOpt st q) hsub2 (by rw [hf1]; exact hsk)
          hinv2 hreach2 ?_
        rcases hlast with hmem | hstrong
        · rcases List.mem_cons.mp hmem with h1 | h1
          · exact absurd h1.symm hpq
          · exact Or.inl h1
        · exact Or.inr ⟨by rw [hf2]; exact hstrong.1, by rw [hf3]; exact hstrong.2⟩
      · rw [hinv q, hm0] at hm
        exact absurd hm.symm hne
      · rw [hinv q] at hne3
        exact absurd hm0 hne3

/-- C1 counterexample: the stored anchor pid 100 is still alive, so the
scan never evaluates triggers: pid 200's command line matches the trigger
bound to the distinct existing profile "other", the current profile is
"game", and after the scan the current profile is still "game" — the
switch claimed "regardless of whether the previously stored anchor pid is
still present" does not happen. -/
theorem C1_counterexample :
    (scanProcesses envKeepAnchor pmKeepAnchor).pm.CurrentPill = "game" ∧
    (scanProcesses envKeepAnchor pmKeepAnchor).pm.CurrentPill ≠ "other" := by
  refine ⟨by decide, by decide⟩

/-- C1 (amended): the switch happens in one scan provided the stored
anchor pid is absent from the scan (otherwise triggers are not evaluated
at all) and the current profile is "default" (otherwise decision branch 1
reverts first): if the only process whose attributed command line matches
any trigger resolves to an existing profile P ∉ {"", "default"}, and the
tuned capability-list call succeeds (a failing one panics the daemon
inside `eatPill`, see C3, so no post-scan state exists), the scan
ends with current profile P, anchor = that process, and an
`eatPill(process, P)` call in the trace. -/
theorem C1_trigger_switch (env : Env) (pm : PillManager) (ps : List Int)
    (p0 : Int) (P : String) (hps : env.procs = some ps)
    (hanchor : pm.currentProc ∉ ps) (hcur : pm.CurrentPill = "default")
    (hbus : env.bus.tunedListOk = true)
    (hp0 : p0 ∈ ps)
    (hreach : (alookup pm.knownProcs p0).isSome = true ∨
      env.username p0 = some pm.userName)
    (hmatch : checkTriggerMatch pm.Triggers (cmdView env pm.knownProcs p0) = P)
    (hPne : P ≠ "") (hPdef : P ≠ "default")
    (hPex : (alookup pm.Pillz P).isSome = true)
    (hothers : ∀ q ∈ ps, q ≠ p0 →
      checkTriggerMatch pm.Triggers (cmdView env pm.knownProcs q) = "") :
    (scanProcesses env pm).pm.CurrentPill = P ∧
    (scanProcesses env pm).pm.currentProc = p0 ∧
    Ev.eat (some p0) P ∈ (scanProcesses env pm).trace := by
  rw [scanProcesses_some env pm ps hps]
  set st := scanLoop env pm (effectiveNice pm) ps (initLoopState pm ps) with hst
  have hPcur : P ≠ pm.CurrentPill := by
    rw [hcur]
    exact hPdef
  have hloop := scanLoop_c1 env pm (effectiveNice pm) ps p0 P hmatch hPne hPcur hPex
    hothers ps (initLoopState pm ps) (fun q h => h)
    (by simp [initLoopState, hanchor]) (fun q => rfl) hreach (Or.inl hp0)
  rw [← hst] at hloop
  obtain ⟨hsk, hnp, htp⟩ := hloop
  have hcond1 : ¬(st.shouldKeep = false ∧
      ({ pm with knownProcs := pruneKnown st } : PillManager).CurrentPill ≠ "default") := by
    intro hcc
    exact hcc.2 hcur
  have hcond2 : st.newPill ≠ "" ∧
      st.newPill ≠ ({ pm with knownProcs := pruneKnown st } : PillManager).CurrentPill := by
    constructor
    · rw [hnp]
      exact hPne
    · rw [hnp]
      exact hPcur
  have hsw := scanDecision_switch env { pm with knownProcs := pruneKnown st } st p0
    hcond1 hcond2 htp hbus
  refine ⟨by rw [hsw.1, hnp], hsw.2.1, ?_⟩
  rw [← hnp]
  exact hsw.2.2

/-! ### Witnesses -/

/-- C1 witness: with anchor absent, current pill "default" and pid 200's
command line matching the "game.exe" trigger, one scan switches to
"game". -/
theorem C1_witness :
    (scanProcesses envSwitch pmSwitch).pm.CurrentPill = "game" ∧
    (scanProcesses envSwitch pmSwitch).pm.currentProc = 200 ∧
    Ev.eat (some 200) "game" ∈ (scanProcesses envSwitch pmSwitch).trace :=
  C1_trigger_switch envSwitch pmSwitch [200] 200 "game" rfl (by decide) rfl rfl
    (by decide) (Or.inr rfl) (by decide) (by decide) (by decide) (by decide)
    (by decide)

/-- C3 witness: on a healthy bus the tuned switch keeps the connection and
does not panic; on a bus whose capability-list query fails it panics; a
successful `eatPill` sets the current pill. -/
theorem C3_witness :
    (setTunedProfile busOk (some 7) [] "gaming").conn = some 7 ∧
    (setTunedProfile busOk (some 7) [] "gaming").panicked = false ∧
    (setTunedProfile busListFail (some 7) [] "gaming").panicked = true ∧
    (eatPill envOneProc pmDefaultNice [] none "default").panicked = false ∧
    (eatPill envOneProc pmDefaultNice [] none "default").pm.CurrentPill
      = "default" := by
  obtain ⟨h1, -, -, -, -, -, -, h8, -, h10⟩ :=
    C3_bridge_behaviour busOk 7 (some 7) [] "gaming" "lavd" envOneProc
      pmDefaultNice none "default"
  obtain ⟨-, -, -, -, -, -, -, -, h9, -⟩ :=
    C3_bridge_behaviour busListFail 7 (some 7) [] "gaming" "lavd" envOneProc
      pmDefaultNice none "default"
  exact ⟨h1, h8 rfl, (h9 rfl).1, (h10 rfl).1, (h10 rfl).2⟩

/-- C4 witness: the anchor process itself, cached and unflagged, with a
resolvable parent, receives the `Setpriority` call. -/
theorem C4_witness :
    Ev.setpriority 100 7 ∈ (reniceCheck envRenice knownAnchor 100 50 100 7).2 :=
  (C4_renice_eligibility envRenice knownAnchor 100 50 100 7 ⟨"n", "c", "u", false⟩
    (by decide) rfl).1.mpr ⟨5, rfl, Or.inr (Or.inr rfl)⟩

/-- C5 witness: current pill "default" whose definition carries
`nice: "-5"` — no `Setpriority` call in the scan trace. -/
theorem C5_witness :
    Ev.setpriority 100 (-5) ∉ (scanProcesses envOneProc pmDefaultNice).trace :=
  (C5_no_nice_on_default envOneProc pmDefaultNice).1 rfl 100 (-5)

/-- C6 witness: anchor absent, empty process list, current pill "game" —
the scan reverts to "default" with exactly one `eatPill` call. -/
theorem C6_witness :
    (scanProcesses envEmpty pmRematch).pm.CurrentPill = "default" ∧
    (scanProcesses envEmpty pmRematch).pm.currentProc = 0 ∧
    (scanProcesses envEmpty pmRematch).trace.countP isEatEv = 1 := by
  have h := C6_revert_exactly_once envEmpty pmRematch [] rfl (by decide) (by decide)
    rfl (fun q hq => absurd hq (List.not_mem_nil q))
  exact ⟨h.1, h.2.1, h.2.2.2.1⟩

/-- C7 witness: stale cached pid 50 versus a scan enumerating only pid 60 —
the surviving record's pid 60 is in the scanned list. -/
theorem C7_witness : (60 : Int) ∈ ([60] : List Int) :=
  C7_cache_only_scanned_pids envPrune pmPrune [60] rfl 60 ⟨"x", "c", "u", false⟩
    (by decide)

/-- C8 witness: owned pid 70 gets cached with its command line and owner;
root-owned pid 80 stays uncached. -/
theorem C8_witness :
    ((alookup (scanProcesses envOwnership pmOwnership).pm.knownProcs 70).map
        (fun i => (i.Cmdline, i.Username)) = some ("cmd70", "u")) ∧
    alookup (scanProcesses envOwnership pmOwnership).pm.knownProcs 80 = none := by
  have h := C8_owned_cached_foreign_not envOwnership pmOwnership [70, 80] 70 rfl
    (by decide) rfl rfl
  exact ⟨h.1, h.2 80 rfl (by decide)⟩

/-- C9 witness: a failing `Setpriority` on the eligible anchor leaves the
cache untouched while the attempt is in the trace. -/
theorem C9_witness :
    (reniceCheck envReniceFail knownAnchor 100 50 100 7).1 = knownAnchor ∧
    (reniceCheck envReniceFail knownAnchor 100 50 100 7).2 = [Ev.setpriority 100 7] := by
  have h := C9_renice_retry_policy envReniceFail knownAnchor 100 50 100 7
    ⟨"n", "c", "u", false⟩ (by decide) rfl
  exact ⟨h.1 rfl, (h.2 5 rfl (Or.inr (Or.inr rfl))).1⟩

/-- C10 witness: a failed enumeration leaves the state untouched with an
empty trace. -/
theorem C10_witness :
    scanProcesses envEnumFail pmOwnership = ⟨pmOwnership, [], [], false⟩ :=
  C10_enumeration_failure_frame envEnumFail pmOwnership rfl

end ProcessPillz
